import Mathlib

/-!
Verification development for the gix Nix-expression interpreter
(lexer, Pratt parser, tree-walking evaluator, derivation constructor).

The Go sources are shallowly embedded below:
* `int64` values are modelled as `Int` (with explicit wrapping where the
  Go code can overflow), `float64` payloads as `Rat` (no claim checked here
  depends on binary floating-point rounding, formatting of non-integral
  floats, or NaN behaviour),
* Go maps (`map[string]Value`, `map[string]string`) are modelled as
  association lists whose update overwrites the first matching key; states
  with duplicated keys are unreachable through the map interface, and
  theorems that quantify over raw association lists carry a no-duplicate
  hypothesis where the model could otherwise diverge from a Go map,
* fallible Go functions returning `(T, error)` become `Except String T`,
* the recursive lexer/parser/evaluator loops receive an explicit fuel
  argument (a pure termination artifact: every concrete run below uses
  ample fuel, and quantified statements fix the fuel shape they need).
-/

namespace Gix

/-! ## AST (internal/types) -/

/-- `types.BinaryOp`. -/
inductive BinaryOp where
  | opAdd | opSub | opMul | opDiv | opConcat
  | opEq | opNEq | opLT | opGT | opLTE | opGTE
  | opAnd | opOr | opImpl | opUpdate
  deriving Repr, DecidableEq

/-- `types.UnaryOp`. -/
inductive UnaryOp where
  | opNot | opNeg
  deriving Repr, DecidableEq

/-- `types.Expr` and its implementations.  `nilE` models a nil Go
`types.Expr` interface value (the parser stores nil sub-expressions in
partially-built nodes after a syntax error).  Attribute-set `Inherits`
clauses are omitted: `parseInherit` discards them, so the field is never
populated by this parser.  Source positions are dropped from AST nodes
(no claim inspects them). -/
inductive Expr where
  | intE (value : Int)
  | floatE (value : Rat)
  | stringE (value : String)
  | boolE (value : Bool)
  | nullE
  | pathE (value : String)
  | identE (name : String)
  | listE (elements : List Expr)
  | attrSetE (recursive : Bool) (bindings : List (List String × Expr))
  | binaryE (left : Expr) (op : BinaryOp) (right : Expr)
  | unaryE (op : UnaryOp) (expr : Expr)
  | ifE (cond thn els : Expr)
  | letE (bindings : List (String × Expr)) (body : Expr)
  | withE (scope : Expr) (body : Expr)
  | assertE (cond : Expr) (body : Expr)
  | funcE (param : String) (body : Expr)
  | applyE (fn : Expr) (arg : Expr)
  | selectE (expr : Expr) (attrPath : List String) (dflt : Option Expr)
  | hasAttrE (expr : Expr) (attrPath : List String)
  | nilE
  deriving Repr

/-- Go `expr == nil` test on `types.Expr` interface values. -/
def Expr.isNil : Expr → Bool
  | .nilE => true
  | _ => false

/-! ## Runtime values (internal/value) -/

/-- `value.Value` and its implementations.  A user function stores its
parameter, body AST, and captured environment (a chain of frames,
innermost first); a builtin is identified by its registered name, whose
behaviour lives in `applyBuiltin` below (in Go it is a closure created by
`registerBuiltin`). -/
inductive Value where
  | vnull
  | vbool (b : Bool)
  | vint (i : Int)
  | vfloat (f : Rat)
  | vstring (s : String)
  | vpath (p : String)
  | vlist (elems : List Value)
  | vattrs (attrs : List (String × Value))
  | vfunction (param : String) (body : Expr) (env : List (List (String × Value)))
  | vbuiltin (name : String)
  deriving Repr

/-- A single environment frame (`value.Env.bindings`, a Go map). -/
abbrev Frame := List (String × Value)

/-- `value.Env`: chain of frames, innermost first.  The Go parent pointer
becomes the tail of the list; `NewEnv` is a single empty frame. -/
abbrev Env := List Frame

/-- The numeric value of `value.Type` (`TypeNull = 0 … TypeBuiltin = 9`).
`value.Type` has no `String()` method, so `%v` in error messages prints
this number. -/
def typeOf : Value → Nat
  | .vnull => 0
  | .vbool _ => 1
  | .vint _ => 2
  | .vfloat _ => 3
  | .vstring _ => 4
  | .vpath _ => 5
  | .vlist _ => 6
  | .vattrs _ => 7
  | .vfunction _ _ _ => 8
  | .vbuiltin _ => 9

/-- `%v` rendering of a `value.Type` in Go error messages. -/
def showType (v : Value) : String := toString (typeOf v)

/-! ### Association-list model of Go maps -/

/-- Go map read `m[k]` (`Attrs.Get`, frame lookup): first matching key. -/
def alistGet (m : List (String × Value)) (k : String) : Option Value :=
  match m with
  | [] => none
  | (k', v) :: rest => if k' = k then some v else alistGet rest k

/-- Go map write `m[k] = v` (`Attrs.Set`, `Env.Set` on one frame):
overwrite the first occurrence of the key, otherwise append. -/
def alistSet (m : List (String × Value)) (k : String) (v : Value) :
    List (String × Value) :=
  match m with
  | [] => [(k, v)]
  | (k', v') :: rest =>
      if k' = k then (k, v) :: rest else (k', v') :: alistSet rest k v

/-- Lexicographic comparison of character lists by code point.  Go
compares strings byte-wise; UTF-8 encoding preserves code-point order, so
this is exactly Go string comparison. -/
def charListLT : List Char → List Char → Bool
  | [], [] => false
  | [], _ :: _ => true
  | _ :: _, [] => false
  | a :: as, b :: bs =>
      if a.toNat < b.toNat then true
      else if b.toNat < a.toNat then false
      else charListLT as bs

/-- Go string `<` (used by relational operators on strings). -/
def strLT (a b : String) : Bool := charListLT a.data b.data

/-- Go string `<=`, the comparison behind `sort.Strings`. -/
def strLE (a b : String) : Bool := !strLT b a

/-- `sort.Strings` over the key list of a Go map (`Attrs.Keys`). -/
def attrsKeys (m : List (String × Value)) : List String :=
  List.insertionSort (fun a b => strLE a b) (m.map Prod.fst)

/-- `Attrs.Len` (Go map size; equals the list length on duplicate-free
states, the only ones reachable through the map interface). -/
def attrsLen (m : List (String × Value)) : Nat := m.length

/-- Stable key-sort of rendered `(key, rendered value)` pairs, then the
`"k = v;"` parts of `value.Attrs.String()`.  The Go loop walks `Keys()` in
sorted order and `Get`s each one; on the duplicate-free states reachable
through the map interface that is the same as stably sorting the pairs by
key before rendering. -/
def sortedAttrParts (ps : List (String × String)) : List String :=
  (List.insertionSort (fun a b => strLE a.1 b.1) ps).map
    (fun p => p.1 ++ " = " ++ p.2 ++ ";")

/-! ### Structural equality (`Value.Equals`) -/

mutual

/-- `value.Value.Equals`: deep structural equality; same-type comparison
only, user functions equal nothing, builtins compare by name. -/
def valueEquals : Value → Value → Bool
  | .vnull, w => match w with | .vnull => true | _ => false
  | .vbool b, w => match w with | .vbool b' => b == b' | _ => false
  | .vint i, w => match w with | .vint i' => i == i' | _ => false
  | .vfloat f, w => match w with | .vfloat f' => f == f' | _ => false
  | .vstring s, w => match w with | .vstring s' => s == s' | _ => false
  | .vpath p, w => match w with | .vpath p' => p == p' | _ => false
  | .vlist xs, w =>
      match w with
      | .vlist ys => listValueEquals xs ys
      | _ => false
  | .vattrs a, w =>
      match w with
      | .vattrs b => attrsLen a == attrsLen b && attrsPairsIncluded a b
      | _ => false
  | .vfunction _ _ _, _ => false
  | .vbuiltin n, w => match w with | .vbuiltin n' => n == n' | _ => false

/-- `value.List.Equals`: equal length and element-wise `Equals`. -/
def listValueEquals : List Value → List Value → Bool
  | [], [] => true
  | x :: xs, y :: ys => valueEquals x y && listValueEquals xs ys
  | _, _ => false

/-- The range loop of `value.Attrs.Equals`: every pair of the left map is
present (by key) and `Equals` in the right map. -/
def attrsPairsIncluded : List (String × Value) → List (String × Value) → Bool
  | [], _ => true
  | (k, v) :: rest, b =>
      (match alistGet b k with
       | some w => valueEquals v w
       | none => false) && attrsPairsIncluded rest b

end

/-- `strings.Join(parts, " ")`. -/
def joinSpace : List String → String
  | [] => ""
  | [s] => s
  | s :: rest => s ++ " " ++ joinSpace rest

/-! ### Printing (`Value.String`) -/

/-- `%g` formatting of a float.  Modelled only on payloads that this
development ever prints; integral floats print without a decimal point,
exactly as Go's shortest `%g` does.  No theorem below depends on the
non-integral branch. -/
def goFormatG (f : Rat) : String :=
  if f.den = 1 then toString f.num else toString f.num ++ "/" ++ toString f.den

mutual

/-- `value.Value.String()`: the printed representation consumed by the
CLI and the tests. -/
def valueString : Value → String
  | .vnull => "null"
  | .vbool b => if b then "true" else "false"
  | .vint i => toString i
  | .vfloat f => goFormatG f
  | .vstring s => "\"" ++ s ++ "\""
  | .vpath p => p
  | .vlist xs => "[ " ++ joinSpace (listValueStrings xs) ++ " ]"
  | .vattrs m =>
      if attrsLen m = 0 then "\x7b \x7d"
      else "\x7b " ++ joinSpace (sortedAttrParts (attrPairStrings m)) ++ " \x7d"
  | .vfunction param _ _ => "<LAMBDA " ++ param ++ ">"
  | .vbuiltin n => "<BUILTIN " ++ n ++ ">"

/-- Element renderings for `value.List.String()`. -/
def listValueStrings : List Value → List String
  | [] => []
  | x :: xs => valueString x :: listValueStrings xs

/-- Rendered `(key, rendered value)` pairs of an attribute set, in map
order; `sortedAttrParts` turns them into the printed parts. -/
def attrPairStrings : List (String × Value) → List (String × String)
  | [] => []
  | (k, v) :: rest => (k, valueString v) :: attrPairStrings rest

end


/-! ## Lexer (pkg/lexer) -/

/-- `lexer.TokenType`. -/
inductive TokenType where
  | TOKEN_EOF | TOKEN_ILLEGAL
  | TOKEN_INT | TOKEN_FLOAT | TOKEN_STRING | TOKEN_PATH | TOKEN_IDENT
  | TOKEN_IF | TOKEN_THEN | TOKEN_ELSE | TOKEN_LET | TOKEN_IN | TOKEN_WITH
  | TOKEN_ASSERT | TOKEN_OR | TOKEN_AND | TOKEN_NOT | TOKEN_REC | TOKEN_INHERIT
  | TOKEN_ASSIGN
  | TOKEN_PLUS | TOKEN_MINUS | TOKEN_MULTIPLY | TOKEN_DIVIDE
  | TOKEN_EQ | TOKEN_NEQ | TOKEN_LT | TOKEN_GT | TOKEN_LTE | TOKEN_GTE
  | TOKEN_AND_OP | TOKEN_OR_OP | TOKEN_IMPL
  | TOKEN_CONCAT | TOKEN_QUESTION | TOKEN_DOT
  | TOKEN_SEMICOLON | TOKEN_COLON | TOKEN_COMMA
  | TOKEN_LPAREN | TOKEN_RPAREN | TOKEN_LBRACE | TOKEN_RBRACE
  | TOKEN_LBRACKET | TOKEN_RBRACKET
  deriving Repr, DecidableEq

open TokenType

/-- `lexer.tokenNames` / `TokenType.String()`. -/
def tokenName : TokenType → String
  | TOKEN_EOF => "EOF"
  | TOKEN_ILLEGAL => "ILLEGAL"
  | TOKEN_INT => "INT"
  | TOKEN_FLOAT => "FLOAT"
  | TOKEN_STRING => "STRING"
  | TOKEN_PATH => "PATH"
  | TOKEN_IDENT => "IDENT"
  | TOKEN_IF => "IF"
  | TOKEN_THEN => "THEN"
  | TOKEN_ELSE => "ELSE"
  | TOKEN_LET => "LET"
  | TOKEN_IN => "IN"
  | TOKEN_WITH => "WITH"
  | TOKEN_ASSERT => "ASSERT"
  | TOKEN_OR => "OR"
  | TOKEN_AND => "AND"
  | TOKEN_NOT => "NOT"
  | TOKEN_REC => "REC"
  | TOKEN_INHERIT => "INHERIT"
  | TOKEN_ASSIGN => "ASSIGN"
  | TOKEN_PLUS => "PLUS"
  | TOKEN_MINUS => "MINUS"
  | TOKEN_MULTIPLY => "MULTIPLY"
  | TOKEN_DIVIDE => "DIVIDE"
  | TOKEN_EQ => "EQ"
  | TOKEN_NEQ => "NEQ"
  | TOKEN_LT => "LT"
  | TOKEN_GT => "GT"
  | TOKEN_LTE => "LTE"
  | TOKEN_GTE => "GTE"
  | TOKEN_AND_OP => "AND_OP"
  | TOKEN_OR_OP => "OR_OP"
  | TOKEN_IMPL => "IMPL"
  | TOKEN_CONCAT => "CONCAT"
  | TOKEN_QUESTION => "QUESTION"
  | TOKEN_DOT => "DOT"
  | TOKEN_SEMICOLON => "SEMICOLON"
  | TOKEN_COLON => "COLON"
  | TOKEN_COMMA => "COMMA"
  | TOKEN_LPAREN => "LPAREN"
  | TOKEN_RPAREN => "RPAREN"
  | TOKEN_LBRACE => "LBRACE"
  | TOKEN_RBRACE => "RBRACE"
  | TOKEN_LBRACKET => "LBRACKET"
  | TOKEN_RBRACKET => "RBRACKET"

/-- `lexer.Token`. -/
structure Token where
  type : TokenType
  literal : String
  line : Nat
  column : Nat
  deriving Repr, DecidableEq

/-- `lexer.keywords` / `LookupIdent`. -/
def lookupIdent (ident : String) : TokenType :=
  if ident = "if" then TOKEN_IF
  else if ident = "then" then TOKEN_THEN
  else if ident = "else" then TOKEN_ELSE
  else if ident = "let" then TOKEN_LET
  else if ident = "in" then TOKEN_IN
  else if ident = "with" then TOKEN_WITH
  else if ident = "assert" then TOKEN_ASSERT
  else if ident = "or" then TOKEN_OR
  else if ident = "and" then TOKEN_AND
  else if ident = "not" then TOKEN_NOT
  else if ident = "rec" then TOKEN_REC
  else if ident = "inherit" then TOKEN_INHERIT
  else TOKEN_IDENT

/-- The byte 0 the Go lexer uses as its end-of-input sentinel. -/
def nulChar : Char := Char.ofNat 0

/-- `lexer.isLetter`: ASCII letters and underscore. -/
def isLetterCh (c : Char) : Bool :=
  (97 ≤ c.toNat && c.toNat ≤ 122) || (65 ≤ c.toNat && c.toNat ≤ 90) || c.toNat == 95

/-- `lexer.isDigit`. -/
def isDigitCh (c : Char) : Bool := 48 ≤ c.toNat && c.toNat ≤ 57

/-- `lexer.isPathChar`. -/
def isPathCharCh (c : Char) : Bool :=
  isLetterCh c || isDigitCh c || c == '/' || c == '.' || c == '-' || c == '_'

/-- `lexer.Lexer`: the Go struct keeps the whole input with two indices;
here `ch` is the character under examination and `rest` the unread
remainder, with the same line/column bookkeeping. -/
structure Lexer where
  ch : Char
  rest : List Char
  line : Nat
  column : Nat
  deriving Repr

/-- `Lexer.readChar`. -/
def readChar (l : Lexer) : Lexer :=
  match l.rest with
  | [] => { l with ch := nulChar, column := l.column + 1 }
  | c :: cs =>
      if c = '\n' then { ch := c, rest := cs, line := l.line + 1, column := 0 }
      else { ch := c, rest := cs, line := l.line, column := l.column + 1 }

/-- `lexer.New`. -/
def newLexer (input : String) : Lexer :=
  readChar { ch := nulChar, rest := input.data, line := 1, column := 0 }

/-- `Lexer.peekChar`. -/
def peekChar (l : Lexer) : Char :=
  match l.rest with
  | [] => nulChar
  | c :: _ => c

/-- Whitespace set of `Lexer.skipWhitespace`. -/
def isWsCh (c : Char) : Bool := c == ' ' || c == '\t' || c == '\n' || c == '\r'

/-- Loop body of `Lexer.skipWhitespace`; the fuel is an upper bound on the
iterations, which consume one unread character each, so
`l.rest.length + 2` always suffices and the translation is total. -/
def skipWhitespaceGo (fuel : Nat) (l : Lexer) : Lexer :=
  match fuel with
  | 0 => l
  | fuel + 1 => if isWsCh l.ch then skipWhitespaceGo fuel (readChar l) else l

/-- `Lexer.skipWhitespace`. -/
def skipWhitespace (l : Lexer) : Lexer := skipWhitespaceGo (l.rest.length + 2) l

/-- Line-comment loop of `Lexer.skipComment`. -/
def skipLineCommentGo (fuel : Nat) (l : Lexer) : Lexer :=
  match fuel with
  | 0 => l
  | fuel + 1 =>
      if l.ch != '\n' && l.ch != nulChar then skipLineCommentGo fuel (readChar l) else l

/-- Block-comment loop of `Lexer.skipComment`. -/
def skipBlockCommentGo (fuel : Nat) (l : Lexer) : Lexer :=
  match fuel with
  | 0 => l
  | fuel + 1 =>
      if l.ch = nulChar then l
      else if l.ch = '*' && peekChar l = '/' then readChar (readChar l)
      else skipBlockCommentGo fuel (readChar l)

/-- `Lexer.skipComment`. -/
def skipComment (l : Lexer) : Lexer :=
  if l.ch = '#' then skipLineCommentGo (l.rest.length + 2) l
  else if l.ch = '/' && peekChar l = '*' then
    skipBlockCommentGo (l.rest.length + 2) (readChar (readChar l))
  else l

/-- `Lexer.readIdentifier` (accumulating instead of slicing). -/
def readIdentifierGo (fuel : Nat) (l : Lexer) (acc : List Char) : String × Lexer :=
  match fuel with
  | 0 => (String.mk acc.reverse, l)
  | fuel + 1 =>
      if isLetterCh l.ch || isDigitCh l.ch then
        readIdentifierGo fuel (readChar l) (l.ch :: acc)
      else (String.mk acc.reverse, l)

/-- `Lexer.readIdentifier`. -/
def readIdentifier (l : Lexer) : String × Lexer :=
  readIdentifierGo (l.rest.length + 2) l []

/-- Digit-run loop of `Lexer.readNumber`. -/
def readDigitsGo (fuel : Nat) (l : Lexer) (acc : List Char) : List Char × Lexer :=
  match fuel with
  | 0 => (acc, l)
  | fuel + 1 =>
      if isDigitCh l.ch then readDigitsGo fuel (readChar l) (l.ch :: acc)
      else (acc, l)

/-- `Lexer.readNumber`: integer part, then a fractional part only when a
dot is immediately followed by a digit. -/
def readNumber (l : Lexer) : String × TokenType × Lexer :=
  let (intPart, l) := readDigitsGo (l.rest.length + 2) l []
  if l.ch = '.' && isDigitCh (peekChar l) then
    let l := readChar l
    let (fracPart, l) := readDigitsGo (l.rest.length + 2) l []
    (String.mk (intPart.reverse ++ '.' :: fracPart.reverse), TOKEN_FLOAT, l)
  else
    (String.mk intPart.reverse, TOKEN_INT, l)

/-- Loop of `Lexer.readString`: content between the quotes, with
backslash-character pairs passed through verbatim. -/
def readStringGo (fuel : Nat) (l : Lexer) (acc : List Char) : String × Lexer :=
  match fuel with
  | 0 => (String.mk acc.reverse, l)
  | fuel + 1 =>
      let l := readChar l
      if l.ch = '"' || l.ch = nulChar then (String.mk acc.reverse, l)
      else if l.ch = '\\' then
        let acc := l.ch :: acc
        let l2 := readChar l
        if l2.ch = nulChar then readStringGo fuel l2 acc
        else readStringGo fuel l2 (l2.ch :: acc)
      else readStringGo fuel l (l.ch :: acc)

/-- `Lexer.readString`. -/
def readStringLit (l : Lexer) : String × Lexer :=
  readStringGo (l.rest.length + 2) l []

/-- `Lexer.readPath`. -/
def readPathGo (fuel : Nat) (l : Lexer) (acc : List Char) : String × Lexer :=
  match fuel with
  | 0 => (String.mk acc.reverse, l)
  | fuel + 1 =>
      if isPathCharCh l.ch then readPathGo fuel (readChar l) (l.ch :: acc)
      else (String.mk acc.reverse, l)

/-- The whitespace-and-comments loop at the top of `Lexer.NextToken`. -/
def skipAllGo (fuel : Nat) (l : Lexer) : Lexer :=
  match fuel with
  | 0 => l
  | fuel + 1 =>
      let l := skipWhitespace l
      if l.ch = '#' || (l.ch = '/' && peekChar l = '*') then
        skipAllGo fuel (skipComment l)
      else l

/-- `unicode.IsLetter` as used in the (unreachable) path branch of
`NextToken`: the `case '/'` arm of the switch always captures a slash, so
this predicate is never consulted; ASCII letters stand in for the Unicode
letter classes. -/
def isGoUnicodeLetter (c : Char) : Bool := isLetterCh c && c.toNat != 95

/-- `Lexer.NextToken`. -/
def nextToken (l : Lexer) : Token × Lexer :=
  let l := skipAllGo (l.rest.length + 2) l
  let tokLine := l.line
  let tokCol := l.column
  let mk := fun (t : TokenType) (s : String) =>
    ({ type := t, literal := s, line := tokLine, column := tokCol : Token })
  if l.ch = '=' then
    if peekChar l = '=' then (mk TOKEN_EQ "==", readChar (readChar l))
    else (mk TOKEN_ASSIGN "=", readChar l)
  else if l.ch = '+' then
    if peekChar l = '+' then (mk TOKEN_CONCAT "++", readChar (readChar l))
    else (mk TOKEN_PLUS "+", readChar l)
  else if l.ch = '-' then
    if peekChar l = '>' then (mk TOKEN_IMPL "->", readChar (readChar l))
    else (mk TOKEN_MINUS "-", readChar l)
  else if l.ch = '*' then (mk TOKEN_MULTIPLY "*", readChar l)
  else if l.ch = '/' then (mk TOKEN_DIVIDE "/", readChar l)
  else if l.ch = '!' then
    if peekChar l = '=' then (mk TOKEN_NEQ "!=", readChar (readChar l))
    else (mk TOKEN_NOT "!", readChar l)
  else if l.ch = '<' then
    if peekChar l = '=' then (mk TOKEN_LTE "<=", readChar (readChar l))
    else (mk TOKEN_LT "<", readChar l)
  else if l.ch = '>' then
    if peekChar l = '=' then (mk TOKEN_GTE ">=", readChar (readChar l))
    else (mk TOKEN_GT ">", readChar l)
  else if l.ch = '&' then
    if peekChar l = '&' then (mk TOKEN_AND_OP "&&", readChar (readChar l))
    else (mk TOKEN_ILLEGAL "&", readChar l)
  else if l.ch = '|' then
    if peekChar l = '|' then (mk TOKEN_OR_OP "||", readChar (readChar l))
    else (mk TOKEN_ILLEGAL "|", readChar l)
  else if l.ch = '?' then (mk TOKEN_QUESTION "?", readChar l)
  else if l.ch = '.' then (mk TOKEN_DOT ".", readChar l)
  else if l.ch = ';' then (mk TOKEN_SEMICOLON ";", readChar l)
  else if l.ch = ':' then (mk TOKEN_COLON ":", readChar l)
  else if l.ch = ',' then (mk TOKEN_COMMA ",", readChar l)
  else if l.ch = '(' then (mk TOKEN_LPAREN "(", readChar l)
  else if l.ch = ')' then (mk TOKEN_RPAREN ")", readChar l)
  else if l.ch = '{' then (mk TOKEN_LBRACE "\x7b", readChar l)
  else if l.ch = '}' then (mk TOKEN_RBRACE "\x7d", readChar l)
  else if l.ch = '[' then (mk TOKEN_LBRACKET "[", readChar l)
  else if l.ch = ']' then (mk TOKEN_RBRACKET "]", readChar l)
  else if l.ch = '"' then
    let (s, l) := readStringLit l
    (mk TOKEN_STRING s, readChar l)
  else if l.ch = nulChar then (mk TOKEN_EOF "", readChar l)
  else if isLetterCh l.ch then
    let (s, l) := readIdentifier l
    (mk (lookupIdent s) s, l)
  else if isDigitCh l.ch then
    let (s, t, l) := readNumber l
    (mk t s, l)
  else if l.ch = '/' && isGoUnicodeLetter (peekChar l) then
    let (s, l) := readPathGo (l.rest.length + 2) l []
    (mk TOKEN_PATH s, l)
  else (mk TOKEN_ILLEGAL (String.mk [l.ch]), readChar l)

/-- Pull tokens until (and including) the first `EOF` token.  Every
non-`EOF` token consumes at least one character, so the bound always
suffices. -/
def tokenizeGo (fuel : Nat) (l : Lexer) : List Token :=
  match fuel with
  | 0 => []
  | fuel + 1 =>
      let (t, l') := nextToken l
      if t.type = TOKEN_EOF then [t] else t :: tokenizeGo fuel l'

/-- The token stream of a source string, ending with its `EOF` token. -/
def tokenize (input : String) : List Token :=
  tokenizeGo (input.length + 2) (newLexer input)

/-! ## Parser (pkg/parser) -/

/-- `parser.ParseError`. -/
structure ParseError where
  message : String
  line : Nat
  column : Nat
  deriving Repr, DecidableEq

/-- `parser.Parser`: current/peek token window over the remaining token
stream, plus the accumulated error collection. -/
structure ParserState where
  cur : Token
  peek : Token
  rest : List Token
  errors : List ParseError
  deriving Repr

/-- The zero `lexer.Token` value (`TOKEN_EOF` is the zero `TokenType`). -/
def zeroToken : Token := { type := TOKEN_EOF, literal := "", line := 0, column := 0 }

/-- `Parser.advance`.  When the pre-lexed stream is exhausted the Go lexer
keeps producing `EOF` tokens whose column advances by one; the synthetic
token mirrors that. -/
def advanceP (p : ParserState) : ParserState :=
  match p.rest with
  | [] =>
      { cur := p.peek,
        peek := { type := TOKEN_EOF, literal := "",
                  line := p.peek.line, column := p.peek.column + 1 },
        rest := [], errors := p.errors }
  | t :: ts => { cur := p.peek, peek := t, rest := ts, errors := p.errors }

/-- `parser.New`: prime the window with two `advance` calls. -/
def newParser (tokens : List Token) : ParserState :=
  advanceP (advanceP { cur := zeroToken, peek := zeroToken, rest := tokens, errors := [] })

/-- `ParseErrors.Addf`. -/
def addError (p : ParserState) (line column : Nat) (msg : String) : ParserState :=
  { p with errors := p.errors ++ [{ message := msg, line := line, column := column }] }

/-- `Parser.curIs`. -/
def curIs (p : ParserState) (t : TokenType) : Bool := p.cur.type = t

/-- `Parser.peekIs`. -/
def peekIs (p : ParserState) (t : TokenType) : Bool := p.peek.type = t

/-- `Parser.expectPeek`. -/
def expectPeek (p : ParserState) (t : TokenType) : Bool × ParserState :=
  if peekIs p t then (true, advanceP p)
  else
    (false,
     addError p p.peek.line p.peek.column
       ("expected next token to be " ++ tokenName t ++ ", got " ++ tokenName p.peek.type))

/-- `parser.precedence*` constants. -/
def precedenceLowest : Nat := 0
def precedenceImpl : Nat := 1
def precedenceOr : Nat := 2
def precedenceAnd : Nat := 3
def precedenceEquals : Nat := 4
def precedenceCompare : Nat := 5
def precedenceUpdate : Nat := 6
def precedenceConcat : Nat := 7
def precedenceSum : Nat := 8
def precedenceProduct : Nat := 9
def precedenceCall : Nat := 10
def precedenceSelect : Nat := 11

/-- `parser.precedenceMap`, with exactly the entries of the source: note
that it keys the logical-and level on the keyword token `TOKEN_AND`
("and"), not on `TOKEN_AND_OP` ("&&"), and has no entry at all for the
attribute-update, has-attr, or `or` tokens. -/
def precedenceMapGo : TokenType → Option Nat
  | TOKEN_IMPL => some precedenceImpl
  | TOKEN_OR_OP => some precedenceOr
  | TOKEN_AND => some precedenceAnd
  | TOKEN_EQ => some precedenceEquals
  | TOKEN_NEQ => some precedenceEquals
  | TOKEN_LT => some precedenceCompare
  | TOKEN_GT => some precedenceCompare
  | TOKEN_LTE => some precedenceCompare
  | TOKEN_GTE => some precedenceCompare
  | TOKEN_CONCAT => some precedenceConcat
  | TOKEN_PLUS => some precedenceSum
  | TOKEN_MINUS => some precedenceSum
  | TOKEN_MULTIPLY => some precedenceProduct
  | TOKEN_DIVIDE => some precedenceProduct
  | TOKEN_DOT => some precedenceSelect
  | _ => none

/-- `Parser.peekPrecedence`. -/
def peekPrecedence (p : ParserState) : Nat :=
  (precedenceMapGo p.peek.type).getD precedenceLowest

/-- `Parser.curPrecedence`. -/
def curPrecedence (p : ParserState) : Nat :=
  (precedenceMapGo p.cur.type).getD precedenceLowest

/-- `Parser.isInfixOperator`. -/
def isInfixOperatorTok (t : TokenType) : Bool := (precedenceMapGo t).isSome

/-- `Parser.couldBeArgument`. -/
def couldBeArgument (p : ParserState) : Bool :=
  match p.peek.type with
  | TOKEN_INT | TOKEN_FLOAT | TOKEN_STRING | TOKEN_PATH
  | TOKEN_IDENT | TOKEN_LBRACE | TOKEN_LBRACKET | TOKEN_LPAREN
  | TOKEN_NOT | TOKEN_MINUS | TOKEN_IF | TOKEN_LET
  | TOKEN_WITH | TOKEN_ASSERT => true
  | _ => false

/-- `strconv.ParseInt(s, 10, 64)` on the digit-only literals the lexer
produces: the parsed value, or `none` on empty/non-digit/overflowing
input (Go reports an error in those cases). -/
def goParseInt (s : String) : Option Int :=
  if s.data.isEmpty then none
  else if s.data.all isDigitCh then
    let n := s.data.foldl (fun acc c => acc * 10 + (c.toNat - 48)) 0
    if n ≤ 9223372036854775807 then some (Int.ofNat n) else none
  else none

/-- `strconv.ParseFloat(s, 64)` on the lexer's numeric literals
(`digits` or `digits.digits`), with the payload kept exact as a rational
(binary64 rounding is irrelevant to every claim checked here). -/
def goParseFloat (s : String) : Option Rat :=
  match s.split (· = '.') with
  | [a] =>
      if a.data.isEmpty || !a.data.all isDigitCh then none
      else some ((a.data.foldl (fun acc c => acc * 10 + (c.toNat - 48)) 0 : Nat) : Rat)
  | [a, b] =>
      if a.data.isEmpty || b.data.isEmpty ||
         !a.data.all isDigitCh || !b.data.all isDigitCh then none
      else
        let ip : Nat := a.data.foldl (fun acc c => acc * 10 + (c.toNat - 48)) 0
        let fp : Nat := b.data.foldl (fun acc c => acc * 10 + (c.toNat - 48)) 0
        some ((ip : Rat) + (fp : Rat) / ((10 : Rat) ^ b.data.length))
  | _ => none

/-- `Parser.parseInt`. -/
def parseIntLit (p : ParserState) : Expr × ParserState :=
  match goParseInt p.cur.literal with
  | some v => (Expr.intE v, p)
  | none =>
      (Expr.nilE,
       addError p p.cur.line p.cur.column
         ("could not parse \"" ++ p.cur.literal ++ "\" as integer"))

/-- `Parser.parseFloat`. -/
def parseFloatLit (p : ParserState) : Expr × ParserState :=
  match goParseFloat p.cur.literal with
  | some v => (Expr.floatE v, p)
  | none =>
      (Expr.nilE,
       addError p p.cur.line p.cur.column
         ("could not parse \"" ++ p.cur.literal ++ "\" as float"))

/-- Dotted-path loop of `Parser.parseAttrPath`; iterations consume two
tokens each, so the token bound always suffices. -/
def parseAttrPathGo (fuel : Nat) (p : ParserState) (acc : List String) :
    Option (List String) × ParserState :=
  match fuel with
  | 0 => (some acc.reverse, p)
  | fuel + 1 =>
      if peekIs p TOKEN_DOT then
        let p := advanceP p
        let p := advanceP p
        if !curIs p TOKEN_IDENT && !curIs p TOKEN_STRING then
          (none,
           addError p p.cur.line p.cur.column
             ("expected identifier or string after dot, got " ++ tokenName p.cur.type))
        else parseAttrPathGo fuel p (p.cur.literal :: acc)
      else (some acc.reverse, p)

/-- `Parser.parseAttrPath`. -/
def parseAttrPath (p : ParserState) : Option (List String) × ParserState :=
  if !curIs p TOKEN_IDENT && !curIs p TOKEN_STRING then
    (none,
     addError p p.cur.line p.cur.column
       ("expected identifier or string, got " ++ tokenName p.cur.type))
  else parseAttrPathGo (p.rest.length + 4) p [p.cur.literal]

/-- Skip-to-semicolon loop of `Parser.parseInherit` (inherit clauses are
parsed and discarded). -/
def parseInheritGo (fuel : Nat) (p : ParserState) : ParserState :=
  match fuel with
  | 0 => p
  | fuel + 1 =>
      if !curIs p TOKEN_SEMICOLON && !curIs p TOKEN_EOF then
        parseInheritGo fuel (advanceP p)
      else p

/-- `Parser.parseInherit`. -/
def parseInherit (p : ParserState) : ParserState :=
  let p := parseInheritGo (p.rest.length + 4) (advanceP p)
  if curIs p TOKEN_SEMICOLON then advanceP p else p

mutual

/-- `Parser.parseExpression`: Pratt loop entry.  The fuel bounds the
mutual-recursion depth only; every concrete run below gets ample fuel. -/
def parseExpression (fuel : Nat) (precedence : Nat) (p : ParserState) :
    Expr × ParserState :=
  match fuel with
  | 0 => (Expr.nilE, p)
  | fuel + 1 =>
      let (pre, p) := parsePrefixExpression fuel p
      if pre.isNil then (Expr.nilE, p)
      else parseInfixLoopGo fuel precedence pre p

/-- The infix/application `for` loop inside `Parser.parseExpression`. -/
def parseInfixLoopGo (fuel : Nat) (precedence : Nat) (left : Expr)
    (p : ParserState) : Expr × ParserState :=
  match fuel with
  | 0 => (left, p)
  | fuel + 1 =>
      if peekIs p TOKEN_SEMICOLON || peekIs p TOKEN_EOF then (left, p)
      else if decide (precedence ≥ peekPrecedence p) && !couldBeArgument p then
        (left, p)
      else if isInfixOperatorTok p.peek.type then
        let p := advanceP p
        let (left', p) := parseInfixExpression fuel left p
        parseInfixLoopGo fuel precedence left' p
      else if couldBeArgument p && decide (precedence < precedenceCall) then
        let p := advanceP p
        let (left', p) := parseFunctionApplication fuel left p
        parseInfixLoopGo fuel precedence left' p
      else (left, p)

/-- `Parser.parsePrefixExpression` (the "nud" dispatcher). -/
def parsePrefixExpression (fuel : Nat) (p : ParserState) : Expr × ParserState :=
  match fuel with
  | 0 => (Expr.nilE, p)
  | fuel + 1 =>
      match p.cur.type with
      | TOKEN_INT => parseIntLit p
      | TOKEN_FLOAT => parseFloatLit p
      | TOKEN_STRING => (Expr.stringE p.cur.literal, p)
      | TOKEN_PATH => (Expr.pathE p.cur.literal, p)
      | TOKEN_IDENT => parseIdentifierOrFunction fuel p
      | TOKEN_IF => parseIf fuel p
      | TOKEN_LET => parseLet fuel p
      | TOKEN_WITH => parseWith fuel p
      | TOKEN_ASSERT => parseAssert fuel p
      | TOKEN_NOT => parseUnary fuel UnaryOp.opNot p
      | TOKEN_MINUS => parseUnary fuel UnaryOp.opNeg p
      | TOKEN_LBRACE => parseAttrSet fuel p
      | TOKEN_LBRACKET => parseList fuel p
      | TOKEN_LPAREN => parseGrouped fuel p
      | t =>
          (Expr.nilE,
           addError p p.cur.line p.cur.column
             ("no prefix parse function for " ++ tokenName t))

/-- `Parser.parseInfixExpression` (the "led" dispatcher).  Note the
logical-and case fires on the keyword token `TOKEN_AND`, mirroring the
source. -/
def parseInfixExpression (fuel : Nat) (left : Expr) (p : ParserState) :
    Expr × ParserState :=
  match fuel with
  | 0 => (Expr.nilE, p)
  | fuel + 1 =>
      match p.cur.type with
      | TOKEN_PLUS => parseBinary fuel left BinaryOp.opAdd p
      | TOKEN_MINUS => parseBinary fuel left BinaryOp.opSub p
      | TOKEN_MULTIPLY => parseBinary fuel left BinaryOp.opMul p
      | TOKEN_DIVIDE => parseBinary fuel left BinaryOp.opDiv p
      | TOKEN_CONCAT => parseBinary fuel left BinaryOp.opConcat p
      | TOKEN_EQ => parseBinary fuel left BinaryOp.opEq p
      | TOKEN_NEQ => parseBinary fuel left BinaryOp.opNEq p
      | TOKEN_LT => parseBinary fuel left BinaryOp.opLT p
      | TOKEN_GT => parseBinary fuel left BinaryOp.opGT p
      | TOKEN_LTE => parseBinary fuel left BinaryOp.opLTE p
      | TOKEN_GTE => parseBinary fuel left BinaryOp.opGTE p
      | TOKEN_AND => parseBinary fuel left BinaryOp.opAnd p
      | TOKEN_OR_OP => parseBinary fuel left BinaryOp.opOr p
      | TOKEN_IMPL => parseBinary fuel left BinaryOp.opImpl p
      | TOKEN_DOT => parseSelect fuel left p
      | TOKEN_QUESTION => parseHasAttr fuel left p
      | TOKEN_OR => parseOrDefault fuel left p
      | t =>
          (Expr.nilE,
           addError p p.cur.line p.cur.column
             ("no infix parse function for " ++ tokenName t))

/-- `Parser.parseBinary`. -/
def parseBinary (fuel : Nat) (left : Expr) (op : BinaryOp) (p : ParserState) :
    Expr × ParserState :=
  match fuel with
  | 0 => (Expr.nilE, p)
  | fuel + 1 =>
      let precedence := curPrecedence p
      let p := advanceP p
      let (right, p) := parseExpression fuel precedence p
      (Expr.binaryE left op right, p)

/-- `Parser.parseUnary`: the operand is parsed at the function-application
precedence level. -/
def parseUnary (fuel : Nat) (op : UnaryOp) (p : ParserState) :
    Expr × ParserState :=
  match fuel with
  | 0 => (Expr.nilE, p)
  | fuel + 1 =>
      let p := advanceP p
      let (e, p) := parseExpression fuel precedenceCall p
      (Expr.unaryE op e, p)

/-- `Parser.parseGrouped`. -/
def parseGrouped (fuel : Nat) (p : ParserState) : Expr × ParserState :=
  match fuel with
  | 0 => (Expr.nilE, p)
  | fuel + 1 =>
      let p := advanceP p
      let (e, p) := parseExpression fuel precedenceLowest p
      let (ok, p) := expectPeek p TOKEN_RPAREN
      if ok then (e, p) else (Expr.nilE, p)

/-- `Parser.parseFunction`. -/
def parseFunction (fuel : Nat) (p : ParserState) : Expr × ParserState :=
  match fuel with
  | 0 => (Expr.nilE, p)
  | fuel + 1 =>
      let param := p.cur.literal
      let (ok, p) := expectPeek p TOKEN_COLON
      if !ok then (Expr.nilE, p)
      else
        let p := advanceP p
        let (body, p) := parseExpression fuel precedenceLowest p
        (Expr.funcE param body, p)

/-- `Parser.parseFunctionApplication`. -/
def parseFunctionApplication (fuel : Nat) (fn : Expr) (p : ParserState) :
    Expr × ParserState :=
  match fuel with
  | 0 => (Expr.nilE, p)
  | fuel + 1 =>
      let (arg, p) := parseExpression fuel precedenceCall p
      (Expr.applyE fn arg, p)

/-- `Parser.parseIdentifierOrFunction`. -/
def parseIdentifierOrFunction (fuel : Nat) (p : ParserState) :
    Expr × ParserState :=
  match fuel with
  | 0 => (Expr.nilE, p)
  | fuel + 1 =>
      if p.cur.literal = "true" then (Expr.boolE true, p)
      else if p.cur.literal = "false" then (Expr.boolE false, p)
      else if p.cur.literal = "null" then (Expr.nullE, p)
      else if peekIs p TOKEN_COLON then parseFunction fuel p
      else (Expr.identE p.cur.literal, p)

/-- `Parser.parseIf`. -/
def parseIf (fuel : Nat) (p : ParserState) : Expr × ParserState :=
  match fuel with
  | 0 => (Expr.nilE, p)
  | fuel + 1 =>
      let p := advanceP p
      let (cond, p) := parseExpression fuel precedenceLowest p
      let (ok, p) := expectPeek p TOKEN_THEN
      if !ok then (Expr.nilE, p)
      else
        let p := advanceP p
        let (thn, p) := parseExpression fuel precedenceLowest p
        let (ok, p) := expectPeek p TOKEN_ELSE
        if !ok then (Expr.nilE, p)
        else
          let p := advanceP p
          let (els, p) := parseExpression fuel precedenceLowest p
          (Expr.ifE cond thn els, p)

/-- `Parser.parseLet`. -/
def parseLet (fuel : Nat) (p : ParserState) : Expr × ParserState :=
  match fuel with
  | 0 => (Expr.nilE, p)
  | fuel + 1 =>
      let p := advanceP p
      match parseLetBindingsGo fuel [] p with
      | (none, p) => (Expr.nilE, p)
      | (some bindings, p) =>
          if !curIs p TOKEN_IN then
            (Expr.nilE,
             addError p p.cur.line p.cur.column
               ("expected \x27in\x27 after let bindings, got " ++ tokenName p.cur.type))
          else
            let p := advanceP p
            let (body, p) := parseExpression fuel precedenceLowest p
            (Expr.letE bindings body, p)

/-- The bindings loop of `Parser.parseLet`; `none` models the nil returns
on malformed bindings. -/
def parseLetBindingsGo (fuel : Nat) (acc : List (String × Expr))
    (p : ParserState) : Option (List (String × Expr)) × ParserState :=
  match fuel with
  | 0 => (some acc.reverse, p)
  | fuel + 1 =>
      if !curIs p TOKEN_IN && !curIs p TOKEN_EOF then
        if !curIs p TOKEN_IDENT then
          (none,
           addError p p.cur.line p.cur.column
             ("expected identifier in let binding, got " ++ tokenName p.cur.type))
        else
          let name := p.cur.literal
          let (ok, p) := expectPeek p TOKEN_ASSIGN
          if !ok then (none, p)
          else
            let p := advanceP p
            let (value, p) := parseExpression fuel precedenceLowest p
            let (ok, p) := expectPeek p TOKEN_SEMICOLON
            if !ok then (none, p)
            else parseLetBindingsGo fuel ((name, value) :: acc) (advanceP p)
      else (some acc.reverse, p)

/-- `Parser.parseWith`. -/
def parseWith (fuel : Nat) (p : ParserState) : Expr × ParserState :=
  match fuel with
  | 0 => (Expr.nilE, p)
  | fuel + 1 =>
      let p := advanceP p
      let (e, p) := parseExpression fuel precedenceLowest p
      let (ok, p) := expectPeek p TOKEN_SEMICOLON
      if !ok then (Expr.nilE, p)
      else
        let p := advanceP p
        let (body, p) := parseExpression fuel precedenceLowest p
        (Expr.withE e body, p)

/-- `Parser.parseAssert`. -/
def parseAssert (fuel : Nat) (p : ParserState) : Expr × ParserState :=
  match fuel with
  | 0 => (Expr.nilE, p)
  | fuel + 1 =>
      let p := advanceP p
      let (cond, p) := parseExpression fuel precedenceLowest p
      let (ok, p) := expectPeek p TOKEN_SEMICOLON
      if !ok then (Expr.nilE, p)
      else
        let p := advanceP p
        let (body, p) := parseExpression fuel precedenceLowest p
        (Expr.assertE cond body, p)

/-- `Parser.parseAttrSet`.  Note the `rec` marker is only recognised
after the opening brace has been skipped, so the accepted form is
`{ rec … }`, not `rec { … }`. -/
def parseAttrSet (fuel : Nat) (p : ParserState) : Expr × ParserState :=
  match fuel with
  | 0 => (Expr.nilE, p)
  | fuel + 1 =>
      let p := advanceP p
      let (recursive, p) :=
        if curIs p TOKEN_REC then (true, advanceP p) else (false, p)
      if curIs p TOKEN_RBRACE then (Expr.attrSetE recursive [], p)
      else parseAttrBindingsGo fuel recursive [] p

/-- The bindings loop plus closing-brace check of `Parser.parseAttrSet`. -/
def parseAttrBindingsGo (fuel : Nat) (recursive : Bool)
    (acc : List (List String × Expr)) (p : ParserState) : Expr × ParserState :=
  match fuel with
  | 0 => (Expr.nilE, p)
  | fuel + 1 =>
      if !curIs p TOKEN_RBRACE && !curIs p TOKEN_EOF then
        if curIs p TOKEN_INHERIT then
          parseAttrBindingsGo fuel recursive acc (parseInherit p)
        else
          let (binding, p) := parseBinding fuel p
          let acc := match binding with
            | some b => acc ++ [b]
            | none => acc
          if curIs p TOKEN_RBRACE then (Expr.attrSetE recursive acc, p)
          else parseAttrBindingsGo fuel recursive acc p
      else if curIs p TOKEN_RBRACE then (Expr.attrSetE recursive acc, p)
      else
        (Expr.nilE,
         addError p p.cur.line p.cur.column
           ("expected \x27\x7d\x27, got " ++ tokenName p.cur.type))

/-- `Parser.parseBinding`; `none` models the nil pointer returned on a
malformed binding. -/
def parseBinding (fuel : Nat) (p : ParserState) :
    Option (List String × Expr) × ParserState :=
  match fuel with
  | 0 => (none, p)
  | fuel + 1 =>
      match parseAttrPath p with
      | (none, p) => (none, p)
      | (some path, p) =>
          let (ok, p) := expectPeek p TOKEN_ASSIGN
          if !ok then (none, p)
          else
            let p := advanceP p
            let (value, p) := parseExpression fuel precedenceLowest p
            let (ok, p) := expectPeek p TOKEN_SEMICOLON
            if !ok then (none, p)
            else (some (path, value), advanceP p)

/-- `Parser.parseList`: elements parse one level above application. -/
def parseList (fuel : Nat) (p : ParserState) : Expr × ParserState :=
  match fuel with
  | 0 => (Expr.nilE, p)
  | fuel + 1 =>
      let p := advanceP p
      if curIs p TOKEN_RBRACKET then (Expr.listE [], p)
      else
        let (first, p) := parseExpression fuel (precedenceCall + 1) p
        parseListElemsGo fuel [first] p

/-- The element loop plus closing-bracket check of `Parser.parseList`. -/
def parseListElemsGo (fuel : Nat) (acc : List Expr) (p : ParserState) :
    Expr × ParserState :=
  match fuel with
  | 0 => (Expr.nilE, p)
  | fuel + 1 =>
      if !peekIs p TOKEN_RBRACKET && !peekIs p TOKEN_EOF then
        let p := advanceP p
        if curIs p TOKEN_RBRACKET then finishList acc p
        else
          let p := if curIs p TOKEN_COMMA then advanceP p else p
          if curIs p TOKEN_RBRACKET then finishList acc p
          else
            let (e, p) := parseExpression fuel (precedenceCall + 1) p
            parseListElemsGo fuel (acc ++ [e]) p
      else finishList acc p

/-- The `expectPeek(TOKEN_RBRACKET)` epilogue of `Parser.parseList`. -/
def finishList (acc : List Expr) (p : ParserState) : Expr × ParserState :=
  let (ok, p) := expectPeek p TOKEN_RBRACKET
  if !ok then (Expr.nilE, p) else (Expr.listE acc, p)

/-- `Parser.parseSelect`. -/
def parseSelect (fuel : Nat) (left : Expr) (p : ParserState) :
    Expr × ParserState :=
  match fuel with
  | 0 => (Expr.nilE, p)
  | _ + 1 =>
      let p := advanceP p
      match parseAttrPath p with
      | (none, p) => (Expr.nilE, p)
      | (some path, p) => (Expr.selectE left path none, p)

/-- `Parser.parseHasAttr`. -/
def parseHasAttr (fuel : Nat) (left : Expr) (p : ParserState) :
    Expr × ParserState :=
  match fuel with
  | 0 => (Expr.nilE, p)
  | _ + 1 =>
      let p := advanceP p
      match parseAttrPath p with
      | (none, p) => (Expr.nilE, p)
      | (some path, p) => (Expr.hasAttrE left path, p)

/-- `Parser.parseOrDefault`: attaches a default to a preceding selection;
a nil parsed default stays nil, exactly as the Go field assignment. -/
def parseOrDefault (fuel : Nat) (left : Expr) (p : ParserState) :
    Expr × ParserState :=
  match fuel with
  | 0 => (Expr.nilE, p)
  | fuel + 1 =>
      match left with
      | Expr.selectE target path _ =>
          let p := advanceP p
          let (d, p) := parseExpression fuel precedenceLowest p
          let dflt := if d.isNil then none else some d
          (Expr.selectE target path dflt, p)
      | _ =>
          (Expr.nilE,
           addError p p.cur.line p.cur.column
             "\x27or\x27 can only be used with attribute selection")

end

/-- `Parser.Parse`: parse at lowest precedence and fail when any error
was collected.  The fuel is proportional to the stream length; it bounds
only the recursion depth of the translation. -/
def parseProgram (tokens : List Token) : Except (List ParseError) Expr :=
  let p := newParser tokens
  let (expr, p) := parseExpression (tokens.length * 8 + 64) precedenceLowest p
  if p.errors.isEmpty then Except.ok expr else Except.error p.errors

/-- Lex and parse a source string. -/
def parseSource (input : String) : Except (List ParseError) Expr :=
  parseProgram (tokenize input)

/-! ## SHA-256 (crypto/sha256, as used by the derivation hash) -/

/-- 32-bit truncation. -/
def m32 (x : Nat) : Nat := x % 4294967296

/-- 32-bit right rotation. -/
def rotr32 (x n : Nat) : Nat := m32 ((x >>> n) ||| (x <<< (32 - n)))

/-- 32-bit complement. -/
def not32 (x : Nat) : Nat := 4294967295 ^^^ x

/-- SHA-256 round constants (FIPS 180-4, written in decimal). -/
def shaK : List Nat :=
  [1116352408, 1899447441, 3049323471, 3921009573, 961987163, 1508970993,
   2453635748, 2870763221, 3624381080, 310598401, 607225278, 1426881987,
   1925078388, 2162078206, 2614888103, 3248222580, 3835390401, 4022224774,
   264347078, 604807628, 770255983, 1249150122, 1555081692, 1996064986,
   2554220882, 2821834349, 2952996808, 3210313671, 3336571891, 3584528711,
   113926993, 338241895, 666307205, 773529912, 1294757372, 1396182291,
   1695183700, 1986661051, 2177026350, 2456956037, 2730485921, 2820302411,
   3259730800, 3345764771, 3516065817, 3600352804, 4094571909, 275423344,
   430227734, 506948616, 659060556, 883997877, 958139571, 1322822218,
   1537002063, 1747873779, 1955562222, 2024104815, 2227730452, 2361852424,
   2428436474, 2756734187, 3204031479, 3329325298]

/-- SHA-256 initial hash state (FIPS 180-4, written in decimal). -/
def shaH0 : List Nat :=
  [1779033703, 3144134277, 1013904242, 2773480762,
   1359893119, 2600822924, 528734635, 1541459225]

/-- Big-endian byte decomposition of a 64-bit value. -/
def bytesBE8 (n : Nat) : List Nat :=
  (List.range 8).map (fun i => (n >>> (8 * (7 - i))) % 256)

/-- SHA-256 message padding over a byte list. -/
def shaPad (msg : List Nat) : List Nat :=
  let r := (msg.length + 1) % 64
  let zeros := (56 + 64 - r) % 64
  msg ++ [0x80] ++ List.replicate zeros 0 ++ bytesBE8 (msg.length * 8)

/-- Split a byte list into 64-byte blocks; the fuel is an iteration
bound (each round consumes at least one byte) and always suffices. -/
def toBlocksGo (fuel : Nat) (bs : List Nat) : List (List Nat) :=
  match fuel with
  | 0 => []
  | fuel + 1 =>
      match bs with
      | [] => []
      | _ => bs.take 64 :: toBlocksGo fuel (bs.drop 64)

/-- Split a byte list into 64-byte blocks. -/
def toBlocks (bs : List Nat) : List (List Nat) := toBlocksGo (bs.length + 1) bs

/-- The sixteen 32-bit big-endian words of a block. -/
def blockWords (block : List Nat) : List Nat :=
  (List.range 16).map (fun i =>
    (block.getD (4 * i) 0) * 16777216 + (block.getD (4 * i + 1) 0) * 65536 +
    (block.getD (4 * i + 2) 0) * 256 + block.getD (4 * i + 3) 0)

/-- Message-schedule extension from 16 to 64 words. -/
def extendWords (fuel : Nat) (w : List Nat) : List Nat :=
  match fuel with
  | 0 => w
  | fuel + 1 =>
      if w.length ≥ 64 then w
      else
        let i := w.length
        let w15 := w.getD (i - 15) 0
        let w2 := w.getD (i - 2) 0
        let s0 := rotr32 w15 7 ^^^ rotr32 w15 18 ^^^ (w15 >>> 3)
        let s1 := rotr32 w2 17 ^^^ rotr32 w2 19 ^^^ (w2 >>> 10)
        extendWords fuel (w ++ [m32 (w.getD (i - 16) 0 + s0 + w.getD (i - 7) 0 + s1)])

/-- One SHA-256 compression round. -/
def shaRound (w : List Nat) (st : List Nat) (i : Nat) : List Nat :=
  match st with
  | [a, b, c, d, e, f, g, h] =>
      let s1 := rotr32 e 6 ^^^ rotr32 e 11 ^^^ rotr32 e 25
      let ch := (e &&& f) ^^^ (not32 e &&& g)
      let t1 := m32 (h + s1 + ch + shaK.getD i 0 + w.getD i 0)
      let s0 := rotr32 a 2 ^^^ rotr32 a 13 ^^^ rotr32 a 22
      let mj := (a &&& b) ^^^ (a &&& c) ^^^ (b &&& c)
      let t2 := m32 (s0 + mj)
      [m32 (t1 + t2), a, b, c, m32 (d + t1), e, f, g]
  | st => st

/-- Compress one block into the running hash state. -/
def shaCompress (h : List Nat) (block : List Nat) : List Nat :=
  let w := extendWords 64 (blockWords block)
  let st := (List.range 64).foldl (shaRound w) h
  (List.range 8).map (fun i => m32 (h.getD i 0 + st.getD i 0))

/-- SHA-256 digest (32 bytes) of a byte list. -/
def sha256 (msg : List Nat) : List Nat :=
  let final := (toBlocks (shaPad msg)).foldl shaCompress shaH0
  (final.map (fun wd => [(wd >>> 24) % 256, (wd >>> 16) % 256, (wd >>> 8) % 256, wd % 256])).flatten

/-- One lowercase hex digit. -/
def hexDigit (n : Nat) : Char :=
  "0123456789abcdef".data.getD n '0'

/-- `hex.EncodeToString`: lowercase hex of a byte list. -/
def hexEncode (bytes : List Nat) : String :=
  String.mk ((bytes.map (fun b => [hexDigit (b / 16), hexDigit (b % 16)])).flatten)

/-- UTF-8 bytes of one character (Go `[]byte(string)`). -/
def utf8EncodeChar (c : Char) : List Nat :=
  let n := c.toNat
  if n < 0x80 then [n]
  else if n < 0x800 then [0xC0 ||| (n >>> 6), 0x80 ||| (n &&& 0x3F)]
  else if n < 0x10000 then
    [0xE0 ||| (n >>> 12), 0x80 ||| ((n >>> 6) &&& 0x3F), 0x80 ||| (n &&& 0x3F)]
  else
    [0xF0 ||| (n >>> 18), 0x80 ||| ((n >>> 12) &&& 0x3F),
     0x80 ||| ((n >>> 6) &&& 0x3F), 0x80 ||| (n &&& 0x3F)]

/-- UTF-8 bytes of a string. -/
def strBytes (s : String) : List Nat := (s.data.map utf8EncodeChar).flatten

/-! ## Derivations (pkg/derivation) -/

/-- Go `map[string]string` read. -/
def smapGet (m : List (String × String)) (k : String) : Option String :=
  match m with
  | [] => none
  | (k', v) :: rest => if k' = k then some v else smapGet rest k

/-- Go `map[string]string` write (overwrite first occurrence or append). -/
def smapSet (m : List (String × String)) (k v : String) : List (String × String) :=
  match m with
  | [] => [(k, v)]
  | (k', v') :: rest =>
      if k' = k then (k, v) :: rest else (k', v') :: smapSet rest k v

/-- Go `map[string][]string` read. -/
def lmapGet (m : List (String × List String)) (k : String) : Option (List String) :=
  match m with
  | [] => none
  | (k', v) :: rest => if k' = k then some v else lmapGet rest k

/-- Go `map[string][]string` write. -/
def lmapSet (m : List (String × List String)) (k : String) (v : List String) :
    List (String × List String) :=
  match m with
  | [] => [(k, v)]
  | (k', v') :: rest =>
      if k' = k then (k, v) :: rest else (k', v') :: lmapSet rest k v

/-- `sort.Strings`. -/
def sortStringsGo (l : List String) : List String :=
  List.insertionSort (fun a b => strLE a b) l

/-- `strings.Join(l, ",")`. -/
def joinComma : List String → String
  | [] => ""
  | [s] => s
  | s :: rest => s ++ "," ++ joinComma rest

/-- `strings.Join(l, "\n")`. -/
def joinNL : List String → String
  | [] => ""
  | [s] => s
  | s :: rest => s ++ "\n" ++ joinNL rest

/-- `derivation.Derivation`. -/
structure Derivation where
  name : String
  builder : String
  args : List String
  env : List (String × String)
  outputs : List (String × String)
  inputDrvs : List (String × List String)
  inputSrcs : List String
  system : String
  hash : String
  storePath : String
  deriving Repr, DecidableEq

/-- `derivation.NewDerivation` (builder state; the `DerivationBuilder`
wrapper is identified with the derivation it builds). -/
def newDerivation (name : String) : Derivation :=
  { name := name, builder := "", args := [], env := [], outputs := [],
    inputDrvs := [], inputSrcs := [], system := "x86_64-linux",
    hash := "", storePath := "" }

/-- `DerivationBuilder.SetBuilder`. -/
def setBuilder (d : Derivation) (builder : String) : Derivation :=
  { d with builder := builder }

/-- `DerivationBuilder.SetArgs`. -/
def setArgs (d : Derivation) (args : List String) : Derivation :=
  { d with args := args }

/-- `DerivationBuilder.SetSystem`. -/
def setSystem (d : Derivation) (system : String) : Derivation :=
  { d with system := system }

/-- `DerivationBuilder.AddEnv`. -/
def addEnv (d : Derivation) (k v : String) : Derivation :=
  { d with env := smapSet d.env k v }

/-- `DerivationBuilder.AddInputDrv`. -/
def addInputDrv (d : Derivation) (path : String) (outputs : List String) :
    Derivation :=
  { d with inputDrvs := lmapSet d.inputDrvs path outputs }

/-- `DerivationBuilder.AddInputSrc`. -/
def addInputSrc (d : Derivation) (path : String) : Derivation :=
  { d with inputSrcs := d.inputSrcs ++ [path] }

/-- Go string slicing `s[:n]` (byte-based; the hex digests sliced here
are ASCII, so bytes and characters coincide). -/
def strSlice (s : String) (n : Nat) : String := String.mk (s.data.take n)

/-- `DerivationBuilder.computeHash`: first 32 hex characters of the
SHA-256 of the canonical newline-joined field list. -/
def computeHash (d : Derivation) : String :=
  let parts :=
    ["name=" ++ d.name, "builder=" ++ d.builder,
     "args=" ++ joinComma d.args, "system=" ++ d.system]
  let envKeys := sortStringsGo (d.env.map Prod.fst)
  let parts := parts ++ envKeys.map (fun k => "env." ++ k ++ "=" ++ ((smapGet d.env k).getD ""))
  let drvKeys := sortStringsGo (d.inputDrvs.map Prod.fst)
  let parts := parts ++ drvKeys.map (fun k =>
    "inputDrv." ++ k ++ "=" ++ joinComma (sortStringsGo ((lmapGet d.inputDrvs k).getD [])))
  let parts := parts ++ (sortStringsGo d.inputSrcs).map (fun src => "inputSrc=" ++ src)
  let content := joinNL parts
  strSlice (hexEncode (sha256 (strBytes content))) 32

/-- `filepath.Join` on an absolute store path and a simple output name
(no cleaning applies to such inputs). -/
def joinPath (a b : String) : String := a ++ "/" ++ b

/-- `DerivationBuilder.Build`: default output, automatic `pname`
environment entry, hash, store path, and defaulted output paths. -/
def buildDrv (d : Derivation) : Derivation :=
  let d := if d.outputs.length = 0 then { d with outputs := smapSet d.outputs "out" "" } else d
  let d := { d with env := smapSet d.env "pname" d.name }
  let hash := computeHash d
  let storePath := "/nix/store/" ++ hash ++ "-" ++ d.name
  let d := { d with hash := hash, storePath := storePath }
  { d with outputs := d.outputs.map (fun p => if p.2 = "" then (p.1, joinPath storePath p.1) else p) }

/-- `Derivation.ToAttrs`. -/
def toAttrs (d : Derivation) : List (String × Value) :=
  let attrs : List (String × Value) := []
  let attrs := alistSet attrs "name" (Value.vstring d.name)
  let attrs := alistSet attrs "builder" (Value.vstring d.builder)
  let attrs := alistSet attrs "system" (Value.vstring d.system)
  let attrs := alistSet attrs "drvPath" (Value.vstring (d.storePath ++ ".drv"))
  let attrs := alistSet attrs "args" (Value.vlist (d.args.map Value.vstring))
  let outAttrs := d.outputs.foldl
    (fun acc p => alistSet acc p.1 (Value.vstring p.2)) []
  let attrs := alistSet attrs "outputs" (Value.vattrs outAttrs)
  d.outputs.foldl (fun acc p => alistSet acc p.1 (Value.vstring p.2)) attrs

/-- Reserved attribute names excluded from the environment in
`derivation.FromAttrs`. -/
def isReservedAttr (k : String) : Bool :=
  k = "name" || k = "builder" || k = "system" || k = "args" || k = "outputs"

/-- The optional-`system` block of `derivation.FromAttrs`: applied only
when the attribute is present and a string. -/
def extractSystem (attrs : List (String × Value)) (db : Derivation) : Derivation :=
  match alistGet attrs "system" with
  | some (Value.vstring s) => setSystem db s
  | _ => db

/-- The optional-`args` block of `derivation.FromAttrs`: a present list
is converted element-wise, non-string elements becoming empty strings. -/
def extractArgs (attrs : List (String × Value)) (db : Derivation) : Derivation :=
  match alistGet attrs "args" with
  | some (Value.vlist l) =>
      setArgs db (l.map (fun v => match v with | Value.vstring s => s | _ => ""))
  | _ => db

/-- The body of the environment-extraction loop of `derivation.FromAttrs`:
skip reserved names, add string-valued attributes as environment
variables, ignore everything else. -/
def envExtractStep (attrs : List (String × Value)) (db : Derivation) (k : String) :
    Derivation :=
  if isReservedAttr k then db
  else match alistGet attrs k with
    | some (Value.vstring s) => addEnv db k s
    | _ => db

/-- `derivation.FromAttrs`: extract `name`/`builder` (required strings),
optional `system`/`args`, and every other string-valued attribute as an
environment variable, then `Build`. -/
def fromAttrs (attrs : List (String × Value)) : Except String Derivation := do
  let nameStr ← match alistGet attrs "name" with
    | none => Except.error "derivation missing required \x27name\x27 attribute"
    | some (Value.vstring s) => Except.ok s
    | some _ => Except.error "derivation \x27name\x27 must be a string"
  let builderStr ← match alistGet attrs "builder" with
    | none => Except.error "derivation missing required \x27builder\x27 attribute"
    | some (Value.vstring s) => Except.ok s
    | some _ => Except.error "derivation \x27builder\x27 must be a string"
  let db := setBuilder (newDerivation nameStr) builderStr
  let db := extractSystem attrs db
  let db := extractArgs attrs db
  let db := (attrsKeys attrs).foldl (envExtractStep attrs) db
  return buildDrv db

/-! ## Evaluator (pkg/eval) -/

/-- Two's-complement wrap of a Go `int64` arithmetic result. -/
def i64wrap (x : Int) : Int := (x + 9223372036854775808) % 18446744073709551616 - 9223372036854775808

/-- `eval.evalAdd`. -/
def evalAdd (left right : Value) : Except String Value :=
  match left with
  | .vint l =>
      match right with
      | .vint r => .ok (.vint (i64wrap (l + r)))
      | .vfloat r => .ok (.vfloat ((l : Rat) + r))
      | _ => .error ("cannot add " ++ showType right ++ " to int")
  | .vfloat l =>
      match right with
      | .vint r => .ok (.vfloat (l + (r : Rat)))
      | .vfloat r => .ok (.vfloat (l + r))
      | _ => .error ("cannot add " ++ showType right ++ " to float")
  | .vstring l =>
      match right with
      | .vstring r => .ok (.vstring (l ++ r))
      | _ => .error ("cannot add " ++ showType right ++ " to string")
  | _ => .error ("cannot add values of type " ++ showType left)

/-- `eval.evalSub`. -/
def evalSub (left right : Value) : Except String Value :=
  match left with
  | .vint l =>
      match right with
      | .vint r => .ok (.vint (i64wrap (l - r)))
      | .vfloat r => .ok (.vfloat ((l : Rat) - r))
      | _ => .error ("cannot subtract " ++ showType right ++ " from int")
  | .vfloat l =>
      match right with
      | .vint r => .ok (.vfloat (l - (r : Rat)))
      | .vfloat r => .ok (.vfloat (l - r))
      | _ => .error ("cannot subtract " ++ showType right ++ " from float")
  | _ => .error ("cannot subtract from " ++ showType left)

/-- `eval.evalMul`. -/
def evalMul (left right : Value) : Except String Value :=
  match left with
  | .vint l =>
      match right with
      | .vint r => .ok (.vint (i64wrap (l * r)))
      | .vfloat r => .ok (.vfloat ((l : Rat) * r))
      | _ => .error ("cannot multiply int by " ++ showType right)
  | .vfloat l =>
      match right with
      | .vint r => .ok (.vfloat (l * (r : Rat)))
      | .vfloat r => .ok (.vfloat (l * r))
      | _ => .error ("cannot multiply float by " ++ showType right)
  | _ => .error ("cannot multiply " ++ showType left)

/-- `eval.evalDiv`: divisor-zero check first, then numeric dispatch; the
result of a defined division is always a float. -/
def evalDiv (left right : Value) : Except String Value :=
  let zero : Bool :=
    match right with
    | .vint r => r = 0
    | .vfloat r => r = 0
    | _ => false
  if zero then .error "division by zero"
  else
    match left with
    | .vint l =>
        match right with
        | .vint r => .ok (.vfloat ((l : Rat) / (r : Rat)))
        | .vfloat r => .ok (.vfloat ((l : Rat) / r))
        | _ => .error ("cannot divide int by " ++ showType right)
    | .vfloat l =>
        match right with
        | .vint r => .ok (.vfloat (l / (r : Rat)))
        | .vfloat r => .ok (.vfloat (l / r))
        | _ => .error ("cannot divide float by " ++ showType right)
    | _ => .error ("cannot divide " ++ showType left)

/-- `eval.evalConcat`. -/
def evalConcat (left right : Value) : Except String Value :=
  match left, right with
  | .vlist ls, .vlist rs => .ok (.vlist (ls ++ rs))
  | _, _ =>
      .error ("++ operator requires two lists, got " ++ showType left ++
        " and " ++ showType right)

/-- `eval.evalLess`. -/
def evalLess (left right : Value) : Except String Value :=
  match left with
  | .vint l =>
      match right with
      | .vint r => .ok (.vbool (decide (l < r)))
      | .vfloat r => .ok (.vbool (decide ((l : Rat) < r)))
      | _ => .error ("cannot compare int with " ++ showType right)
  | .vfloat l =>
      match right with
      | .vint r => .ok (.vbool (decide (l < (r : Rat))))
      | .vfloat r => .ok (.vbool (decide (l < r)))
      | _ => .error ("cannot compare float with " ++ showType right)
  | .vstring l =>
      match right with
      | .vstring r => .ok (.vbool (strLT l r))
      | _ => .error ("cannot compare string with " ++ showType right)
  | _ => .error ("cannot compare " ++ showType left)

/-- `eval.evalGreater`: `a > b` delegates to `b < a`. -/
def evalGreater (left right : Value) : Except String Value :=
  evalLess right left

/-- `eval.evalLessEq`. -/
def evalLessEq (left right : Value) : Except String Value := do
  let less ← evalLess left right
  match less with
  | .vbool true => .ok (.vbool true)
  | _ => .ok (.vbool (valueEquals left right))

/-- `eval.evalGreaterEq`. -/
def evalGreaterEq (left right : Value) : Except String Value := do
  let greater ← evalGreater left right
  match greater with
  | .vbool true => .ok (.vbool true)
  | _ => .ok (.vbool (valueEquals left right))

/-- The copy loops of `eval.evalUpdate`: set each sorted key of `src`
into `acc`.  The `getD` default is unreachable, since every key in the
list has a first match. -/
def copyKeysGo (acc : List (String × Value)) (src : List (String × Value)) :
    List String → List (String × Value)
  | [] => acc
  | k :: ks => copyKeysGo (alistSet acc k ((alistGet src k).getD Value.vnull)) src ks

/-- `eval.evalUpdate`: fresh set, left keys copied, right keys override. -/
def evalUpdate (left right : Value) : Except String Value :=
  match left, right with
  | .vattrs l, .vattrs r =>
      let result : List (String × Value) := []
      let result := copyKeysGo result l (attrsKeys l)
      let result := copyKeysGo result r (attrsKeys r)
      .ok (.vattrs result)
  | _, _ =>
      .error ("// operator requires two attribute sets, got " ++ showType left ++
        " and " ++ showType right)

/-- `eval.evalUnary`'s operand dispatch (the operand is evaluated by the
caller). -/
def evalUnaryOp (op : UnaryOp) (operand : Value) : Except String Value :=
  match op with
  | .opNot =>
      match operand with
      | .vbool b => .ok (.vbool !b)
      | _ => .error ("! operator requires boolean operand, got " ++ showType operand)
  | .opNeg =>
      match operand with
      | .vint v => .ok (.vint (i64wrap (-v)))
      | .vfloat v => .ok (.vfloat (-v))
      | _ => .error ("- operator requires numeric operand, got " ++ showType operand)

/-- `value.List.Get`: index into a list, `Null` when out of bounds. -/
def listGetGo (xs : List Value) (i : Nat) : Value := xs.getD i Value.vnull

/-! ### Builtins (pkg/eval/builtins.go) -/

/-- `strconv.FormatInt(i, 10)`. -/
def goFormatInt (i : Int) : String := toString i

/-- `strconv.FormatFloat(f, 'f', -1, 64)`, modelled on the integral
payloads this development can reach (no claim exercises the rest). -/
def goFormatF (f : Rat) : String :=
  if f.den = 1 then toString f.num else toString f.num ++ "/" ++ toString f.den

/-- `builtinIsNull` … `builtinIsFunction`, `builtinToString`,
`builtinLength`, `builtinHead`, `builtinTail`, `builtinElem`,
`builtinAttrNames`, `builtinAttrValues`, `builtinHasAttr`,
`builtinGetAttr`, the math builtins, and `builtinDerivation`, dispatched
by registered name; the caller has already checked the arity, so each
implementation sees exactly its declared argument count. -/
def builtinImpl (name : String) (args : List Value) : Except String Value :=
  match name, args with
  | "isNull", [v] => .ok (.vbool (match v with | .vnull => true | _ => false))
  | "isBool", [v] => .ok (.vbool (match v with | .vbool _ => true | _ => false))
  | "isInt", [v] => .ok (.vbool (match v with | .vint _ => true | _ => false))
  | "isFloat", [v] => .ok (.vbool (match v with | .vfloat _ => true | _ => false))
  | "isString", [v] => .ok (.vbool (match v with | .vstring _ => true | _ => false))
  | "isList", [v] => .ok (.vbool (match v with | .vlist _ => true | _ => false))
  | "isAttrs", [v] => .ok (.vbool (match v with | .vattrs _ => true | _ => false))
  | "isFunction", [v] =>
      .ok (.vbool (match v with
        | .vfunction _ _ _ => true
        | .vbuiltin _ => true
        | _ => false))
  | "toString", [v] =>
      match v with
      | .vstring s => .ok (.vstring s)
      | .vint i => .ok (.vstring (goFormatInt i))
      | .vfloat f => .ok (.vstring (goFormatF f))
      | .vbool b => .ok (.vstring (if b then "true" else "false"))
      | .vnull => .ok (.vstring "null")
      | .vpath p => .ok (.vstring p)
      | _ => .error ("cannot convert " ++ showType v ++ " to string")
  | "length", [v] =>
      match v with
      | .vlist xs => .ok (.vint xs.length)
      | .vstring s => .ok (.vint s.utf8ByteSize)
      | .vattrs m => .ok (.vint (attrsLen m))
      | _ => .error ("length expects a list, string, or attrset, got " ++ showType v)
  | "head", [v] =>
      match v with
      | .vlist xs =>
          if xs.length = 0 then .error "head called on empty list"
          else .ok (listGetGo xs 0)
      | _ => .error ("head expects a list, got " ++ showType v)
  | "tail", [v] =>
      match v with
      | .vlist xs =>
          if xs.length = 0 then .error "tail called on empty list"
          else .ok (.vlist xs.tail)
      | _ => .error ("tail expects a list, got " ++ showType v)
  | "elem", [e, l] =>
      match l with
      | .vlist xs => .ok (.vbool (xs.any (fun x => valueEquals e x)))
      | _ => .error ("elem expects a list as second argument, got " ++ showType l)
  | "attrNames", [v] =>
      match v with
      | .vattrs m => .ok (.vlist ((attrsKeys m).map Value.vstring))
      | _ => .error ("attrNames expects an attribute set, got " ++ showType v)
  | "attrValues", [v] =>
      match v with
      | .vattrs m =>
          .ok (.vlist ((attrsKeys m).map (fun k => (alistGet m k).getD Value.vnull)))
      | _ => .error ("attrValues expects an attribute set, got " ++ showType v)
  | "hasAttr", [n, a] =>
      match n with
      | .vstring s =>
          match a with
          | .vattrs m => .ok (.vbool (alistGet m s).isSome)
          | _ => .error ("hasAttr expects an attribute set as second argument, got " ++ showType a)
      | _ => .error ("hasAttr expects a string as first argument, got " ++ showType n)
  | "getAttr", [n, a] =>
      match n with
      | .vstring s =>
          match a with
          | .vattrs m =>
              match alistGet m s with
              | some v => .ok v
              | none => .error ("attribute \x27" ++ s ++ "\x27 not found")
          | _ => .error ("getAttr expects an attribute set as second argument, got " ++ showType a)
      | _ => .error ("getAttr expects a string as first argument, got " ++ showType n)
  | "add", [a, b] => evalAdd a b
  | "sub", [a, b] => evalSub a b
  | "mul", [a, b] => evalMul a b
  | "div", [a, b] => evalDiv a b
  | "derivation", [v] =>
      match v with
      | .vattrs m =>
          match fromAttrs m with
          | .ok drv => .ok (.vattrs (toAttrs drv))
          | .error e => .error ("invalid derivation: " ++ e)
      | _ => .error ("derivation expects an attribute set, got " ++ showType v)
  | _, _ => .error "unknown builtin"

/-- The arity table of `registerBuiltins`. -/
def builtinArity (name : String) : Nat :=
  if name = "elem" || name = "hasAttr" || name = "getAttr" ||
     name = "add" || name = "sub" || name = "mul" || name = "div" then 2
  else 1

/-- Names registered through `registerBuiltin`. -/
def registeredBuiltins : List String :=
  ["isNull", "isBool", "isInt", "isFloat", "isString", "isList", "isAttrs",
   "isFunction", "toString", "length", "head", "tail", "elem",
   "attrNames", "attrValues", "hasAttr", "getAttr",
   "add", "sub", "mul", "div", "derivation"]

/-- The arity-checking wrapper installed by `registerBuiltin`
(`Builtin.Apply` on a registered builtin). -/
def applyBuiltin (name : String) (args : List Value) : Except String Value :=
  let arity := builtinArity name
  if args.length ≠ arity then
    .error (name ++ " expects " ++ toString arity ++ " argument(s), got " ++
      toString args.length)
  else builtinImpl name args

/-- The `builtins` registry of `Evaluator.New`: constants plus wrapped
builtins. -/
def builtinsRegistry : List (String × Value) :=
  [("true", Value.vbool true), ("false", Value.vbool false), ("null", Value.vnull)] ++
  registeredBuiltins.map (fun n => (n, Value.vbuiltin n))

/-- `filepath.IsAbs`. -/
def isAbsPath (p : String) : Bool :=
  match p.data with
  | '/' :: _ => true
  | _ => false

/-- `Evaluator.resolvePath`: absolute paths unchanged, relative paths
joined onto the base directory.  `filepath.Join`'s cleaning is modelled
only for the absolute branch actually reachable here (the lexer's `case
'/'` arm shadows the path branch of its switch, so no claim evaluates a
path literal). -/
def resolvePath (baseDir p : String) : String :=
  if isAbsPath p then p else baseDir ++ "/" ++ p

/-- `Env.Get` (unnamed source part: `value.Env`): scan frames
innermost-first, each frame a Go map. -/
def envGet (env : Env) (name : String) : Option Value :=
  match env with
  | [] => none
  | frame :: parents =>
      match alistGet frame name with
      | some v => some v
      | none => envGet parents name

/-- `Env.Set`: bind in the innermost frame. -/
def envSet (env : Env) (name : String) (v : Value) : Env :=
  match env with
  | [] => [[(name, v)]]
  | frame :: parents => alistSet frame name v :: parents

/-- `Env.Extend`: push a fresh empty child frame. -/
def envExtend (env : Env) : Env := [] :: env

/-- `eval.isSimpleExpr`: literal expressions seeded in phase one of
recursive-set evaluation. -/
def isSimpleExpr : Expr → Bool
  | .intE _ | .floatE _ | .stringE _ | .boolE _ | .nullE | .pathE _ => true
  | _ => false

/-- The pure path walk of `Evaluator.setNestedAttr` (the Go code walks
and mutates the freshly-built result set in place; rebuilding the spine
yields the same resulting set). -/
def setNestedPure (attrs : List (String × Value)) (path : List String)
    (val : Value) : Except String (List (String × Value)) :=
  match path with
  | [] => .error "empty attribute path"
  | [last] => .ok (alistSet attrs last val)
  | k :: rest =>
      match alistGet attrs k with
      | some (.vattrs nested) => do
          let nested' ← setNestedPure nested rest val
          .ok (alistSet attrs k (.vattrs nested'))
      | some _ => .error ("attribute path conflict at " ++ k)
      | none => do
          let nested' ← setNestedPure [] rest val
          .ok (alistSet attrs k (.vattrs nested'))

/-- Outcome of the attribute-path walk in `Evaluator.evalSelect`:
found, a miss that may fall back to the default, or the hard error Go
returns without consulting the default (empty path). -/
inductive SelectRes where
  | found (v : Value)
  | miss (msg : String)
  | hardErr (msg : String)

/-- The path-walking loop of `Evaluator.evalSelect`. -/
def selectWalkGo (current : Value) : List String → SelectRes
  | [] => .hardErr "unexpected end of attribute path"
  | key :: rest =>
      match current with
      | .vattrs m =>
          match alistGet m key with
          | some next =>
              if rest.isEmpty then .found next else selectWalkGo next rest
          | none => .miss ("attribute \x27" ++ key ++ "\x27 not found")
      | _ =>
          .miss ("cannot select attribute \x27" ++ key ++ "\x27 from " ++
            showType current)

/-- The path-walking loop of `Evaluator.evalHasAttr`. -/
def hasAttrWalkGo (current : Value) : List String → Bool
  | [] => true
  | key :: rest =>
      match current with
      | .vattrs m =>
          match alistGet m key with
          | some next => if rest.isEmpty then true else hasAttrWalkGo next rest
          | none => false
      | _ => false

/-- The frame built by `Evaluator.evalWith`: every key of the scope set,
bound in sorted-key order into a fresh child frame. -/
def withFrameFold (m : List (String × Value)) (env : Env) : Env :=
  (attrsKeys m).foldl (fun acc k => envSet acc k ((alistGet m k).getD Value.vnull))
    (envExtend env)

mutual

/-- `Evaluator.evalExpr`, the central dispatcher.  The fuel bounds the
recursion depth of the translation only (Go recurses on the host stack);
every recursive call gets the predecessor fuel. -/
def evalExpr (baseDir : String) (fuel : Nat) (e : Expr) (env : Env) :
    Except String Value :=
  match fuel with
  | 0 => .error "model: evaluation fuel exhausted"
  | fuel + 1 =>
      match e with
      | .intE v => .ok (.vint v)
      | .floatE v => .ok (.vfloat v)
      | .stringE v => .ok (.vstring v)
      | .boolE v => .ok (.vbool v)
      | .nullE => .ok .vnull
      | .pathE v => .ok (.vpath (resolvePath baseDir v))
      | .identE n =>
          match envGet env n with
          | some v => .ok v
          | none => .error ("undefined variable: " ++ n)
      | .listE es => do
          let vs ← evalListGo baseDir fuel es env
          .ok (.vlist vs)
      | .attrSetE recursive bindings =>
          evalAttrSetGo baseDir fuel recursive bindings env
      | .binaryE l op r =>
          match op with
          | .opAnd => do
              let lv ← evalExpr baseDir fuel l env
              match lv with
              | .vbool false => .ok (.vbool false)
              | .vbool true => do
                  let rv ← evalExpr baseDir fuel r env
                  match rv with
                  | .vbool b => .ok (.vbool b)
                  | _ => .error ("&& requires boolean operands, got " ++ showType rv)
              | _ => .error ("&& requires boolean operands, got " ++ showType lv)
          | .opOr => do
              let lv ← evalExpr baseDir fuel l env
              match lv with
              | .vbool true => .ok (.vbool true)
              | .vbool false => do
                  let rv ← evalExpr baseDir fuel r env
                  match rv with
                  | .vbool b => .ok (.vbool b)
                  | _ => .error ("|| requires boolean operands, got " ++ showType rv)
              | _ => .error ("|| requires boolean operands, got " ++ showType lv)
          | .opImpl => do
              let lv ← evalExpr baseDir fuel l env
              match lv with
              | .vbool false => .ok (.vbool true)
              | .vbool true => do
                  let rv ← evalExpr baseDir fuel r env
                  match rv with
                  | .vbool b => .ok (.vbool b)
                  | _ => .error ("-> requires boolean operands, got " ++ showType rv)
              | _ => .error ("-> requires boolean operands, got " ++ showType lv)
          | op => do
              let lv ← evalExpr baseDir fuel l env
              let rv ← evalExpr baseDir fuel r env
              match op with
              | .opAdd => evalAdd lv rv
              | .opSub => evalSub lv rv
              | .opMul => evalMul lv rv
              | .opDiv => evalDiv lv rv
              | .opConcat => evalConcat lv rv
              | .opEq => .ok (.vbool (valueEquals lv rv))
              | .opNEq => .ok (.vbool !(valueEquals lv rv))
              | .opLT => evalLess lv rv
              | .opGT => evalGreater lv rv
              | .opLTE => evalLessEq lv rv
              | .opGTE => evalGreaterEq lv rv
              | .opUpdate => evalUpdate lv rv
              | _ => .error "unknown binary operator"
      | .unaryE op operand => do
          let v ← evalExpr baseDir fuel operand env
          evalUnaryOp op v
      | .ifE c t el => do
          let cv ← evalExpr baseDir fuel c env
          match cv with
          | .vbool b =>
              if b then evalExpr baseDir fuel t env
              else evalExpr baseDir fuel el env
          | _ => .error ("if condition must be boolean, got " ++ showType cv)
      | .letE bs body => do
          let env' ← evalLetGo baseDir fuel bs (envExtend env)
          evalExpr baseDir fuel body env'
      | .withE scope body => do
          let sv ← evalExpr baseDir fuel scope env
          match sv with
          | .vattrs m => evalExpr baseDir fuel body (withFrameFold m env)
          | _ => .error ("with expression requires attribute set, got " ++ showType sv)
      | .assertE c body => do
          let cv ← evalExpr baseDir fuel c env
          match cv with
          | .vbool b =>
              if !b then .error "assertion failed"
              else evalExpr baseDir fuel body env
          | _ => .error ("assert condition must be boolean, got " ++ showType cv)
      | .funcE param body => .ok (.vfunction param body env)
      | .applyE fn arg => do
          let fv ← evalExpr baseDir fuel fn env
          let av ← evalExpr baseDir fuel arg env
          match fv with
          | .vfunction param body fenv =>
              if body.isNil then .error "invalid function body"
              else evalExpr baseDir fuel body (envSet (envExtend fenv) param av)
          | .vbuiltin n => applyBuiltin n [av]
          | _ => .error ("cannot apply non-function value of type " ++ showType fv)
      | .selectE target path dflt => do
          let v ← evalExpr baseDir fuel target env
          match selectWalkGo v path with
          | .found w => .ok w
          | .hardErr msg => .error msg
          | .miss msg =>
              match dflt with
              | some d => evalExpr baseDir fuel d env
              | none => .error msg
      | .hasAttrE target path => do
          let v ← evalExpr baseDir fuel target env
          .ok (.vbool (hasAttrWalkGo v path))
      | .nilE => .error "unknown expression type"

/-- `Evaluator.evalList`'s element loop. -/
def evalListGo (baseDir : String) (fuel : Nat) (es : List Expr) (env : Env) :
    Except String (List Value) :=
  match fuel with
  | 0 => .error "model: evaluation fuel exhausted"
  | fuel + 1 =>
      match es with
      | [] => .ok []
      | e :: rest => do
          let v ← evalExpr baseDir fuel e env
          let vs ← evalListGo baseDir fuel rest env
          .ok (v :: vs)

/-- `Evaluator.evalLet`'s bindings loop: evaluate in textual order, each
binding entering the child environment before the next is evaluated. -/
def evalLetGo (baseDir : String) (fuel : Nat) (bs : List (String × Expr))
    (env : Env) : Except String Env :=
  match fuel with
  | 0 => .error "model: evaluation fuel exhausted"
  | fuel + 1 =>
      match bs with
      | [] => .ok env
      | (n, e) :: rest =>
          match evalExpr baseDir fuel e env with
          | .error m => .error ("error in let binding " ++ n ++ ": " ++ m)
          | .ok v => evalLetGo baseDir fuel rest (envSet env n v)

/-- `Evaluator.evalAttrSet`: two-phase evaluation for recursive sets,
plain left-to-right evaluation otherwise. -/
def evalAttrSetGo (baseDir : String) (fuel : Nat) (recursive : Bool)
    (bindings : List (List String × Expr)) (env : Env) : Except String Value :=
  match fuel with
  | 0 => .error "model: evaluation fuel exhausted"
  | fuel + 1 =>
      if recursive then do
        let (attrs, recEnv) ← attrPhase1 baseDir fuel bindings [] (envExtend env)
        let attrs ← attrPhase2 baseDir fuel bindings attrs recEnv
        .ok (.vattrs attrs)
      else do
        let attrs ← attrNonRec baseDir fuel bindings [] env
        .ok (.vattrs attrs)

/-- Phase one of recursive-set evaluation: every top-level binding whose
value is a simple literal is evaluated and inserted into both the result
set and the recursive frame. -/
def attrPhase1 (baseDir : String) (fuel : Nat)
    (bindings : List (List String × Expr))
    (attrs : List (String × Value)) (recEnv : Env) :
    Except String (List (String × Value) × Env) :=
  match fuel with
  | 0 => .error "model: evaluation fuel exhausted"
  | fuel + 1 =>
      match bindings with
      | [] => .ok (attrs, recEnv)
      | ([k], vexpr) :: rest =>
          if isSimpleExpr vexpr then do
            let v ← evalExpr baseDir fuel vexpr recEnv
            attrPhase1 baseDir fuel rest (alistSet attrs k v) (envSet recEnv k v)
          else attrPhase1 baseDir fuel rest attrs recEnv
      | _ :: rest => attrPhase1 baseDir fuel rest attrs recEnv

/-- Phase two of recursive-set evaluation: remaining top-level bindings
evaluated with the recursive frame in scope (the frame itself is not
extended further), then nested paths installed through
`setNestedAttr`. -/
def attrPhase2 (baseDir : String) (fuel : Nat)
    (bindings : List (List String × Expr))
    (attrs : List (String × Value)) (recEnv : Env) :
    Except String (List (String × Value)) :=
  match fuel with
  | 0 => .error "model: evaluation fuel exhausted"
  | fuel + 1 =>
      match bindings with
      | [] => .ok attrs
      | ([k], vexpr) :: rest =>
          if !isSimpleExpr vexpr then do
            let v ← evalExpr baseDir fuel vexpr recEnv
            attrPhase2 baseDir fuel rest (alistSet attrs k v) recEnv
          else attrPhase2 baseDir fuel rest attrs recEnv
      | (path@(_ :: _ :: _), vexpr) :: rest => do
          let v ← evalExpr baseDir fuel vexpr recEnv
          let attrs' ← setNestedPure attrs path v
          attrPhase2 baseDir fuel rest attrs' recEnv
      | ([], _) :: rest => attrPhase2 baseDir fuel rest attrs recEnv

/-- The non-recursive branch of `Evaluator.evalAttrSet`. -/
def attrNonRec (baseDir : String) (fuel : Nat)
    (bindings : List (List String × Expr))
    (attrs : List (String × Value)) (env : Env) :
    Except String (List (String × Value)) :=
  match fuel with
  | 0 => .error "model: evaluation fuel exhausted"
  | fuel + 1 =>
      match bindings with
      | [] => .ok attrs
      | ([k], vexpr) :: rest => do
          let v ← evalExpr baseDir fuel vexpr env
          attrNonRec baseDir fuel rest (alistSet attrs k v) env
      | (path, vexpr) :: rest => do
          let v ← evalExpr baseDir fuel vexpr env
          let attrs' ← setNestedPure attrs path v
          attrNonRec baseDir fuel rest attrs' env

end

/-- The top-level frame of `Evaluator.Eval`: a fresh environment with
every builtin bound. -/
def builtinsFrame : Frame :=
  builtinsRegistry.foldl (fun fr p => alistSet fr p.1 p.2) []

/-- `Evaluator.Eval`: evaluate in a fresh builtin-populated environment
(the test helper and the CLI construct the evaluator with base directory
`"."`). -/
def evalProgram (fuel : Nat) (e : Expr) : Except String Value :=
  evalExpr "." fuel e [builtinsFrame]

/-- Outcome of the lex-parse-evaluate pipeline on one source string. -/
inductive RunResult where
  | parseFailure (errs : List ParseError)
  | evalFailure (msg : String)
  | success (v : Value)
  deriving Repr

/-- The whole pipeline (`testEval` in the evaluator tests, the `-e` path
of the CLI): lex, parse, then evaluate in a fresh environment. -/
def runSource (input : String) : RunResult :=
  match parseSource input with
  | .error errs => .parseFailure errs
  | .ok e =>
      match evalProgram (input.length * 8 + 256) e with
      | .error m => .evalFailure m
      | .ok v => .success v

/-- The printed output of a successful run (what the CLI prints). -/
def runPrints (input output : String) : Prop :=
  ∃ v, runSource input = .success v ∧ valueString v = output

/-! ## Heap view of `evalUpdate` (frame-effect claims)

`value.Attrs` values are pointers to mutable Go maps.  To reason about
allocation and mutation, the update operator is additionally embedded
against an explicit heap of attribute-set slots: `evalUpdate` reads its
two operand slots, allocates one fresh slot (`value.NewAttrs`), and
issues `Set` calls only against that fresh slot. -/

/-- Heap of attribute-set contents; a `*value.Attrs` is an index. -/
abbrev AttrHeap := List (List (String × Value))

/-- Dereference a heap slot. -/
def heapGetMap (h : AttrHeap) (a : Nat) : List (String × Value) :=
  (h[a]?).getD []

/-- `Attrs.Set` through a heap pointer. -/
def heapSetKey (h : AttrHeap) (a : Nat) (k : String) (v : Value) : AttrHeap :=
  h.set a (alistSet (heapGetMap h a) k v)

/-- One copy loop of `evalUpdate`, writing into the result slot. -/
def copyIntoHeap (h : AttrHeap) (res : Nat) (src : List (String × Value)) :
    List String → AttrHeap
  | [] => h
  | k :: ks =>
      copyIntoHeap (heapSetKey h res k ((alistGet src k).getD Value.vnull)) res src ks

/-- `eval.evalUpdate` against the heap: read both operands, allocate a
fresh result set, copy the left operand's sorted keys, then the right
operand's.  Returns the new heap and the fresh pointer. -/
def evalUpdateH (h : AttrHeap) (la ra : Nat) : AttrHeap × Nat :=
  let lm := heapGetMap h la
  let rm := heapGetMap h ra
  let res := h.length
  let h := h ++ [[]]
  let h := copyIntoHeap h res lm (attrsKeys lm)
  let h := copyIntoHeap h res rm (attrsKeys rm)
  (h, res)

/-! ## Library lemmas about the map model -/

theorem alistGet_alistSet (m : List (String × Value)) (k k' : String) (v : Value) :
    alistGet (alistSet m k v) k' = if k = k' then some v else alistGet m k' := by
  induction m with
  | nil => by_cases h : k = k' <;> simp [alistSet, alistGet, h]
  | cons p rest ih =>
      obtain ⟨k1, v1⟩ := p
      by_cases h1 : k1 = k
      · subst h1
        by_cases h2 : k1 = k' <;> simp [alistSet, alistGet, h2]
      · by_cases h2 : k1 = k'
        · subst h2
          have h3 : ¬(k = k1) := fun h => h1 h.symm
          simp [alistSet, alistGet, h1, h3]
        · simp [alistSet, alistGet, h1, h2, ih]

theorem copyKeysGo_get (ks : List String) (acc src : List (String × Value))
    (k : String) :
    alistGet (copyKeysGo acc src ks) k =
      if k ∈ ks then some ((alistGet src k).getD Value.vnull) else alistGet acc k := by
  induction ks generalizing acc with
  | nil => simp [copyKeysGo]
  | cons k0 ks ih =>
      simp only [copyKeysGo, ih, alistGet_alistSet]
      by_cases hks : k ∈ ks
      · simp [hks]
      · by_cases hk0 : k0 = k
        · subst hk0; simp [hks]
        · have hk0' : ¬(k = k0) := fun h => hk0 h.symm
          simp [hks, hk0, hk0']

theorem mem_fst_iff_get_isSome (m : List (String × Value)) (k : String) :
    k ∈ m.map Prod.fst ↔ (alistGet m k).isSome := by
  induction m with
  | nil => simp [alistGet]
  | cons p rest ih =>
      obtain ⟨k1, v1⟩ := p
      by_cases h : k1 = k
      · subst h; simp [alistGet]
      · simp [alistGet, h, ih, Ne.symm h]

theorem mem_attrsKeys_iff (m : List (String × Value)) (k : String) :
    k ∈ attrsKeys m ↔ (alistGet m k).isSome := by
  unfold attrsKeys
  rw [(List.perm_insertionSort _ _).mem_iff]
  exact mem_fst_iff_get_isSome m k

theorem heapGetMap_set_ne (h : AttrHeap) (res a : Nat) (k : String) (v : Value)
    (hne : res ≠ a) : heapGetMap (heapSetKey h res k v) a = heapGetMap h a := by
  simp [heapGetMap, heapSetKey, List.getElem?_set_ne hne]

theorem heapSetKey_length (h : AttrHeap) (res : Nat) (k : String) (v : Value) :
    (heapSetKey h res k v).length = h.length := by
  simp [heapSetKey]

theorem heapGetMap_set_self (h : AttrHeap) (res : Nat) (k : String) (v : Value)
    (hlt : res < h.length) :
    heapGetMap (heapSetKey h res k v) res = alistSet (heapGetMap h res) k v := by
  simp [heapGetMap, heapSetKey, List.getElem?_set_self hlt]

theorem copyIntoHeap_length (ks : List String) (h : AttrHeap) (res : Nat)
    (src : List (String × Value)) :
    (copyIntoHeap h res src ks).length = h.length := by
  induction ks generalizing h with
  | nil => rfl
  | cons k ks ih => simp [copyIntoHeap, ih, heapSetKey_length]

theorem copyIntoHeap_get_ne (ks : List String) (h : AttrHeap) (res a : Nat)
    (src : List (String × Value)) (hne : res ≠ a) :
    heapGetMap (copyIntoHeap h res src ks) a = heapGetMap h a := by
  induction ks generalizing h with
  | nil => rfl
  | cons k ks ih => simp [copyIntoHeap, ih, heapGetMap_set_ne _ _ _ _ _ hne]

theorem copyIntoHeap_get_self (ks : List String) (h : AttrHeap) (res : Nat)
    (src : List (String × Value)) (hlt : res < h.length) :
    heapGetMap (copyIntoHeap h res src ks) res =
      copyKeysGo (heapGetMap h res) src ks := by
  induction ks generalizing h with
  | nil => rfl
  | cons k ks ih =>
      simp only [copyIntoHeap, copyKeysGo]
      rw [ih _ (by simp [heapSetKey_length]; omega),
        heapGetMap_set_self _ _ _ _ hlt]

/-! ## Claims -/

/-- Claim C1: `evalUpdate` does produce a right-biased shallow merge —
for every two attribute sets the result's lookup takes the right operand's
value when present and the left operand's otherwise, and its key set is
the union — but the claimed source expression
`{ a = 1; b = 2; } // { b = 3; c = 4; }` never reaches it: the lexer has
no update token (`//` lexes as two `DIVIDE` tokens, lexer.go's `case
'/'`), so parsing fails instead of printing `{ a = 1; b = 3; c = 4; }`.
The merge semantics and printed form the claim expects are exhibited on a
directly constructed `OpUpdate` node. -/
theorem c1_update_merge_semantics_and_source_rejected :
    (∀ (l r : List (String × Value)),
      ∃ m, evalUpdate (.vattrs l) (.vattrs r) = .ok (.vattrs m) ∧
        (∀ k, alistGet m k =
          (match alistGet r k with
           | some v => some v
           | none => alistGet l k)) ∧
        (∀ k, (alistGet m k).isSome ↔
          ((alistGet l k).isSome ∨ (alistGet r k).isSome))) ∧
    evalProgram 99
      (Expr.binaryE
        (Expr.attrSetE false [(["a"], .intE 1), (["b"], .intE 2)])
        .opUpdate
        (Expr.attrSetE false [(["b"], .intE 3), (["c"], .intE 4)])) =
      .ok (.vattrs [("a", .vint 1), ("b", .vint 3), ("c", .vint 4)]) ∧
    valueString (.vattrs [("a", .vint 1), ("b", .vint 3), ("c", .vint 4)]) =
      "\x7b a = 1; b = 3; c = 4; \x7d" ∧
    runSource "\x7b a = 1; b = 2; \x7d // \x7b b = 3; c = 4; \x7d" =
      .parseFailure
        [{ message := "no prefix parse function for DIVIDE", line := 1, column := 20 }] := by
  refine ⟨?_, by rfl, by rfl, by rfl⟩
  intro l r
  refine ⟨_, rfl, ?_, ?_⟩
  · intro k
    rw [copyKeysGo_get, copyKeysGo_get]
    rcases hr : alistGet r k with _ | v
    · have hnr : k ∉ attrsKeys r := by
        rw [mem_attrsKeys_iff, hr]; simp
      rw [if_neg hnr]
      rcases hl : alistGet l k with _ | w
      · have hnl : k ∉ attrsKeys l := by
          rw [mem_attrsKeys_iff, hl]; simp
        rw [if_neg hnl]; rfl
      · have hml : k ∈ attrsKeys l := by
          rw [mem_attrsKeys_iff, hl]; rfl
        rw [if_pos hml]; rfl
    · have hmr : k ∈ attrsKeys r := by
        rw [mem_attrsKeys_iff, hr]; rfl
      rw [if_pos hmr]; rfl
  · intro k
    rw [copyKeysGo_get, copyKeysGo_get]
    rcases hr : alistGet r k with _ | v
    · have hnr : k ∉ attrsKeys r := by
        rw [mem_attrsKeys_iff, hr]; simp
      rw [if_neg hnr]
      rcases hl : alistGet l k with _ | w
      · have hnl : k ∉ attrsKeys l := by
          rw [mem_attrsKeys_iff, hl]; simp
        rw [if_neg hnl]; simp [alistGet]
      · have hml : k ∈ attrsKeys l := by
          rw [mem_attrsKeys_iff, hl]; rfl
        rw [if_pos hml]; simp
    · have hmr : k ∈ attrsKeys r := by
        rw [mem_attrsKeys_iff, hr]; rfl
      rw [if_pos hmr]; simp

/-- Claim C2: the evaluator's conjunction semantics are as claimed — a
false left operand short-circuits to `false` without the right operand
ever being evaluated (so an error there cannot surface), a true left
operand yields the right operand's boolean, and a non-boolean evaluated
operand is a type-mismatch error — but `e1 && e2` does not parse as a
binary conjunction: `precedenceMap` keys the and-level on the keyword
token `TOKEN_AND` instead of `TOKEN_AND_OP`, so the Pratt loop stops at
`&&` and silently drops the right-hand side; `true && false` parses as
the bare literal `true` and evaluates to `true`. -/
theorem c2_and_short_circuits_but_ampamp_never_parses :
    (∀ (bd : String) (fuel : Nat) (e1 e2 : Expr) (env : Env),
      evalExpr bd fuel e1 env = .ok (.vbool false) →
      evalExpr bd (fuel + 1) (.binaryE e1 .opAnd e2) env = .ok (.vbool false)) ∧
    (∀ (bd : String) (fuel : Nat) (e1 e2 : Expr) (env : Env) (v : Value),
      evalExpr bd fuel e1 env = .ok v → (∀ b, v ≠ .vbool b) →
      evalExpr bd (fuel + 1) (.binaryE e1 .opAnd e2) env =
        .error ("&& requires boolean operands, got " ++ showType v)) ∧
    (∀ (bd : String) (fuel : Nat) (e1 e2 : Expr) (env : Env) (v : Value),
      evalExpr bd fuel e1 env = .ok (.vbool true) →
      evalExpr bd fuel e2 env = .ok v → (∀ b, v ≠ .vbool b) →
      evalExpr bd (fuel + 1) (.binaryE e1 .opAnd e2) env =
        .error ("&& requires boolean operands, got " ++ showType v)) ∧
    (∀ (bd : String) (fuel : Nat) (e1 e2 : Expr) (env : Env) (b : Bool),
      evalExpr bd fuel e1 env = .ok (.vbool true) →
      evalExpr bd fuel e2 env = .ok (.vbool b) →
      evalExpr bd (fuel + 1) (.binaryE e1 .opAnd e2) env = .ok (.vbool b)) ∧
    parseSource "true && false" = .ok (.boolE true) ∧
    runSource "true && false" = .success (.vbool true) := by
  refine ⟨?_, ?_, ?_, ?_, by rfl, by rfl⟩
  · intro bd fuel e1 e2 env h
    simp only [evalExpr, h]
    rfl
  · intro bd fuel e1 e2 env v h hb
    cases v with
    | vbool b => exact absurd rfl (hb b)
    | _ => simp only [evalExpr, h]; rfl
  · intro bd fuel e1 e2 env v h1 h2 hb
    cases v with
    | vbool b => exact absurd rfl (hb b)
    | _ => simp only [evalExpr, h1, h2]; rfl
  · intro bd fuel e1 e2 env b h1 h2
    simp only [evalExpr, h1, h2]
    rfl

/-- Concrete instantiation of the conjunction semantics: the erroring
right operand `1 / 0` is never evaluated behind a false left operand; a
non-boolean operand (`7`, type code 2) is rejected on whichever side is
evaluated. -/
theorem c2_and_short_circuits_witness :
    evalExpr "." 2 (.binaryE (.boolE false) .opAnd (.binaryE (.intE 1) .opDiv (.intE 0))) []
      = .ok (.vbool false) ∧
    evalExpr "." 2 (.binaryE (.intE 7) .opAnd (.boolE true)) []
      = .error "&& requires boolean operands, got 2" ∧
    evalExpr "." 2 (.binaryE (.boolE true) .opAnd (.intE 7)) []
      = .error "&& requires boolean operands, got 2" ∧
    evalExpr "." 2 (.binaryE (.boolE true) .opAnd (.boolE false)) []
      = .ok (.vbool false) :=
  ⟨c2_and_short_circuits_but_ampamp_never_parses.1 "." 1 _ _ [] (by rfl),
   c2_and_short_circuits_but_ampamp_never_parses.2.1 "." 1 _ _ [] (.vint 7) (by rfl)
     (by intro b h; cases h),
   c2_and_short_circuits_but_ampamp_never_parses.2.2.1 "." 1 _ _ [] (.vint 7) (by rfl) (by rfl)
     (by intro b h; cases h),
   c2_and_short_circuits_but_ampamp_never_parses.2.2.2.1 "." 1 _ _ [] false (by rfl) (by rfl)⟩

/-- Claim C3: `elem x (xs ++ [x])` never evaluates to `true` — it cannot
evaluate at all.  `evalApply` hands a builtin exactly one argument
(`fn.Apply([]value.Value{argVal})`), while `elem` is registered with
arity 2, so the inner of the two nested `Apply` nodes already fails with
the arity error, and the outer node propagates it. -/
theorem c3_elem_application_fails_with_arity_error :
    (∀ (bd : String) (fuel : Nat) (e1 e2 : Expr) (env : Env) (v : Value),
      evalExpr bd fuel e1 env = .ok (.vbuiltin "elem") →
      evalExpr bd fuel e2 env = .ok v →
      evalExpr bd (fuel + 1) (.applyE e1 e2) env =
        .error "elem expects 2 argument(s), got 1") ∧
    (∀ (bd : String) (fuel : Nat) (fn arg : Expr) (env : Env) (msg : String),
      evalExpr bd fuel fn env = .error msg →
      evalExpr bd (fuel + 1) (.applyE fn arg) env = .error msg) ∧
    runSource "elem 1 ([ 2 ] ++ [ 1 ])" =
      .evalFailure "elem expects 2 argument(s), got 1" := by
  refine ⟨?_, ?_, by rfl⟩
  · intro bd fuel e1 e2 env v h1 h2
    have happ : applyBuiltin "elem" [v] = .error "elem expects 2 argument(s), got 1" := by
      simp only [applyBuiltin, builtinArity, List.length_cons, List.length_nil]
      rfl
    simp only [evalExpr, h1, h2]
    exact happ
  · intro bd fuel fn arg env msg h
    simp only [evalExpr, h]
    rfl

/-- Concrete instantiation: applying the `elem` builtin from the
top-level environment to a single argument fails with the arity error,
and the failure propagates through the outer application node. -/
theorem c3_elem_application_fails_witness :
    evalExpr "." 2 (.applyE (.identE "elem") (.intE 1)) [builtinsFrame] =
      .error "elem expects 2 argument(s), got 1" ∧
    evalExpr "." 3
      (.applyE (.applyE (.identE "elem") (.intE 1)) (.listE [.intE 1])) [builtinsFrame] =
      .error "elem expects 2 argument(s), got 1" :=
  ⟨c3_elem_application_fails_with_arity_error.1 "." 1 _ _ [builtinsFrame] (.vint 1)
     (by rfl) (by rfl),
   c3_elem_application_fails_with_arity_error.2.1 "." 2 _ _ [builtinsFrame] _
     (c3_elem_application_fails_with_arity_error.1 "." 1 _ _ [builtinsFrame] (.vint 1)
       (by rfl) (by rfl))⟩

/-! ### Claim C4: spec-side canonical hash string -/

/-- The canonical string described by the claim, over explicit fields:
the four header fields, one `env.<k>=<v>` line per environment key in
ascending order, then the sorted `inputDrv` and `inputSrc` lines, joined
by newlines. -/
def specCanonicalString (name builder : String) (args : List String)
    (system : String) (env : List (String × String))
    (inputDrvs : List (String × List String)) (inputSrcs : List String) :
    String :=
  joinNL
    (["name=" ++ name, "builder=" ++ builder,
      "args=" ++ joinComma args, "system=" ++ system] ++
     (sortStringsGo (env.map Prod.fst)).map
       (fun k => "env." ++ k ++ "=" ++ ((smapGet env k).getD "")) ++
     (sortStringsGo (inputDrvs.map Prod.fst)).map
       (fun k => "inputDrv." ++ k ++ "=" ++
         joinComma (sortStringsGo ((lmapGet inputDrvs k).getD []))) ++
     (sortStringsGo inputSrcs).map (fun src => "inputSrc=" ++ src))

/-- First 32 hex characters of the SHA-256 of a canonical string (the
claim's hash recipe). -/
def specHash (canonical : String) : String :=
  strSlice (hexEncode (sha256 (strBytes canonical))) 32

/-- The user-supplied environment variables of a derivation input set,
per the claim: every string-valued attribute outside the reserved names,
in ascending key order. -/
def specUserEnv (attrs : List (String × Value)) : List (String × String) :=
  (attrsKeys attrs).filterMap (fun k =>
    if isReservedAttr k then none
    else match alistGet attrs k with
      | some (Value.vstring s) => some (k, s)
      | _ => none)

/-- `computeHash` is the claim's hash recipe applied to the derivation's
own fields (including its full environment map). -/
theorem computeHash_eq_specHash (d : Derivation) :
    computeHash d = specHash (specCanonicalString d.name d.builder d.args
      d.system d.env d.inputDrvs d.inputSrcs) := rfl

theorem smapGet_append_none (m : List (String × String)) (k k' : String)
    (v : String) (h : smapGet m k' = none) (hne : k ≠ k') :
    smapGet (m ++ [(k, v)]) k' = none := by
  induction m with
  | nil => simp [smapGet, hne]
  | cons p rest ih =>
      obtain ⟨k1, v1⟩ := p
      by_cases h1 : k1 = k'
      · simp [smapGet, h1] at h
      · simp [smapGet, h1] at h ⊢
        exact ih h

theorem smapSet_append_of_get_none (m : List (String × String)) (k v : String)
    (h : smapGet m k = none) : smapSet m k v = m ++ [(k, v)] := by
  induction m with
  | nil => simp [smapSet]
  | cons p rest ih =>
      obtain ⟨k1, v1⟩ := p
      by_cases h1 : k1 = k
      · simp [smapGet, h1] at h
      · simp [smapGet, h1] at h
        simp [smapSet, h1, ih h]

theorem envExtract_foldl (attrs : List (String × Value)) (ks : List String)
    (db : Derivation) (hpre : ∀ k ∈ ks, smapGet db.env k = none)
    (hnd : ks.Nodup) :
    ks.foldl (envExtractStep attrs) db =
      { db with env := db.env ++ ks.filterMap (fun k =>
          if isReservedAttr k then none
          else match alistGet attrs k with
            | some (Value.vstring s) => some (k, s)
            | _ => none) } := by
  induction ks generalizing db with
  | nil => simp
  | cons k ks ih =>
      have hk : smapGet db.env k = none := hpre k (List.mem_cons_self _ _)
      have hks : ∀ k' ∈ ks, smapGet db.env k' = none :=
        fun k' hk' => hpre k' (List.mem_cons_of_mem _ hk')
      have hndk : k ∉ ks := (List.nodup_cons.mp hnd).1
      have hnd' : ks.Nodup := (List.nodup_cons.mp hnd).2
      simp only [List.foldl_cons, List.filterMap_cons]
      cases hres : isReservedAttr k with
      | true =>
          have hstep : envExtractStep attrs db k = db := by
            simp [envExtractStep, hres]
          rw [hstep, ih db hks hnd']
          rfl
      | false =>
          rcases hv : alistGet attrs k with _ | v
          · have hstep : envExtractStep attrs db k = db := by
              simp [envExtractStep, hres, hv]
            rw [hstep, ih db hks hnd']
            rfl
          · cases v with
            | vstring s =>
                have hstep : envExtractStep attrs db k =
                    { db with env := db.env ++ [(k, s)] } := by
                  simp [envExtractStep, hres, hv, addEnv,
                    smapSet_append_of_get_none db.env k s hk]
                rw [hstep,
                  ih { db with env := db.env ++ [(k, s)] }
                    (fun k' hk' =>
                      smapGet_append_none db.env k k' s (hks k' hk')
                        (fun he => hndk (he ▸ hk')))
                    hnd']
                simp [List.append_assoc]
            | _ =>
                have hstep : envExtractStep attrs db k = db := by
                  simp [envExtractStep, hres, hv]
                rw [hstep, ih db hks hnd']
                rfl

theorem extractSystem_shape (attrs : List (String × Value)) (db : Derivation) :
    ∃ S, extractSystem attrs db = { db with system := S } := by
  unfold extractSystem
  rcases alistGet attrs "system" with _ | v
  · exact ⟨db.system, rfl⟩
  · cases v <;> exact ⟨_, rfl⟩

theorem extractArgs_shape (attrs : List (String × Value)) (db : Derivation) :
    ∃ A, extractArgs attrs db = { db with args := A } := by
  unfold extractArgs
  rcases alistGet attrs "args" with _ | v
  · exact ⟨db.args, rfl⟩
  · cases v <;> exact ⟨_, rfl⟩

theorem exceptBind_ok {α β : Type} (a : α) (f : α → Except String β) :
    (Except.ok a >>= f) = f a := rfl

/-- Claim C4 (counterexample): for the valid derivation input set
`{ name = "a"; builder = "b"; }` the derivation hash is NOT the first 32
hex characters of the SHA-256 of the canonical string built from the four
header fields plus one `env.<k>=<v>` line per user-supplied environment
key (here: none): `Build` first injects an automatic `pname=<name>`
environment entry, so an `env.pname=a` line enters the hashed string. -/
theorem c4_hash_counterexample :
    ∃ drv, fromAttrs [("name", Value.vstring "a"), ("builder", Value.vstring "b")] =
        .ok drv ∧
      drv.hash ≠ specHash (specCanonicalString "a" "b" [] "x86_64-linux"
        (specUserEnv [("name", Value.vstring "a"), ("builder", Value.vstring "b")])
        [] []) := by
  set_option maxRecDepth 10000 in
  exact ⟨_, rfl, by decide⟩

/-- Claim C4 (amended): for every valid derivation input set, the
derivation hash is the first 32 hex characters of the SHA-256 of the
canonical newline-joined field list — `name=`, `builder=`, `args=`
(comma-joined), `system=`, then one `env.<k>=<v>` line per key of the
environment map in ascending order, then the sorted `inputDrv`/`inputSrc`
lines — where the environment map consists of the user-supplied
string-valued non-reserved attributes PLUS an automatically inserted
`pname=<name>` entry; the store path is `/nix/store/<hash>-<name>` and
`drvPath` is the store path plus `.drv`. -/
theorem c4_hash_amended (attrs : List (String × Value)) (drv : Derivation)
    (hnd : (attrs.map Prod.fst).Nodup)
    (h : fromAttrs attrs = .ok drv) :
    drv.hash = specHash (specCanonicalString drv.name drv.builder drv.args
      drv.system (smapSet (specUserEnv attrs) "pname" drv.name)
      drv.inputDrvs drv.inputSrcs) ∧
    drv.storePath = "/nix/store/" ++ drv.hash ++ "-" ++ drv.name ∧
    alistGet (toAttrs drv) "drvPath" =
      some (.vstring (drv.storePath ++ ".drv")) := by
  have hkeysnd : (attrsKeys attrs).Nodup :=
    ((List.perm_insertionSort _ _).nodup_iff).mpr hnd
  unfold fromAttrs at h
  rcases hname : alistGet attrs "name" with _ | nv
  · rw [hname] at h; exact Except.noConfusion h
  · rw [hname] at h
    cases nv with
    | vstring n =>
        rcases hbuilder : alistGet attrs "builder" with _ | bv
        · rw [hbuilder] at h; exact Except.noConfusion h
        · rw [hbuilder] at h
          cases bv with
          | vstring b =>
              have hdrv : drv = buildDrv ((attrsKeys attrs).foldl (envExtractStep attrs)
                  (extractArgs attrs (extractSystem attrs
                    (setBuilder (newDerivation n) b)))) := (Except.ok.inj h).symm
              obtain ⟨S, hS⟩ := extractSystem_shape attrs (setBuilder (newDerivation n) b)
              obtain ⟨A, hA⟩ := extractArgs_shape attrs
                (extractSystem attrs (setBuilder (newDerivation n) b))
              have hpre : extractArgs attrs (extractSystem attrs
                  (setBuilder (newDerivation n) b)) =
                  { name := n, builder := b, args := A, env := [], outputs := [],
                    inputDrvs := [], inputSrcs := [], system := S,
                    hash := "", storePath := "" } := by
                rw [hA, hS]; rfl
              rw [hpre, envExtract_foldl attrs (attrsKeys attrs)
                { name := n, builder := b, args := A, env := [], outputs := [],
                  inputDrvs := [], inputSrcs := [], system := S,
                  hash := "", storePath := "" }
                (fun k _ => rfl) hkeysnd] at hdrv
              subst hdrv
              exact ⟨rfl, rfl, rfl⟩
          | _ => exact Except.noConfusion h
    | _ => exact Except.noConfusion h

def c4Attrs : List (String × Value) :=
  [("name", Value.vstring "a"), ("builder", Value.vstring "b")]

def c4Drv : Derivation :=
  match fromAttrs c4Attrs with
  | .ok d => d
  | .error _ => newDerivation ""

set_option maxRecDepth 10000 in
/-- Witness for C4 (amended) at the input with name `a` and builder `b`. -/
theorem c4_hash_amended_witness :
    c4Drv.hash = specHash (specCanonicalString c4Drv.name c4Drv.builder c4Drv.args
      c4Drv.system (smapSet (specUserEnv c4Attrs) "pname" c4Drv.name)
      c4Drv.inputDrvs c4Drv.inputSrcs) ∧
    c4Drv.storePath = "/nix/store/" ++ c4Drv.hash ++ "-" ++ c4Drv.name ∧
    alistGet (toAttrs c4Drv) "drvPath" =
      some (.vstring (c4Drv.storePath ++ ".drv")) :=
  c4_hash_amended c4Attrs c4Drv (by decide) (by rfl)

/-- Claim C5: the evaluator does evaluate recursive attribute sets in two
phases — a simple-literal binding is seeded into the recursive frame before
any non-simple binding is evaluated, so a later simple binding is visible to
an earlier non-simple one while a non-simple binding is never seeded
(conjuncts 1–3) — but the surface syntax `rec \x7b … \x7d` of the claim never
reaches the evaluator: `rec` has no prefix parse function, so
`rec \x7b x = 1; y = x + 1; \x7d` is a parse error (conjunct 4); only the
variant with `rec` after the brace exercises the two-phase code and prints
the claimed result (conjunct 5). -/
theorem c5_rec_two_phase_eval_but_rec_braces_rejected :
    evalProgram 100 (Expr.attrSetE true
      [(["x"], .intE 1), (["y"], .binaryE (.identE "x") .opAdd (.intE 1))]) =
      .ok (.vattrs [("x", .vint 1), ("y", .vint 2)]) ∧
    evalProgram 100 (Expr.attrSetE true
      [(["y"], .binaryE (.identE "x") .opAdd (.intE 1)), (["x"], .intE 1)]) =
      .ok (.vattrs [("x", .vint 1), ("y", .vint 2)]) ∧
    evalProgram 100 (Expr.attrSetE true
      [(["y"], .binaryE (.identE "x") .opAdd (.intE 1)), (["x"], .identE "z"),
       (["z"], .intE 1)]) = .error "undefined variable: x" ∧
    parseSource "rec \x7b x = 1; y = x + 1; \x7d" =
      .error [{ message := "no prefix parse function for REC",
                line := 1, column := 1 }] ∧
    runPrints "\x7b rec x = 1; y = x + 1; \x7d" "\x7b x = 1; y = 2; \x7d" :=
  ⟨rfl, rfl, rfl, rfl, _, rfl, rfl⟩

set_option maxRecDepth 4000 in
/-- Claim C6: the print/parse round trip fails on a non-function value.
The string value consisting of one double-quote character prints as three
double quotes (quote characters are not escaped), which parses back as the
application of the empty string to the empty string and evaluates to the
error `cannot apply non-function value of type 4` — no value at all, let
alone one structurally equal to the original. -/
theorem c6_roundtrip_counterexample :
    valueString (Value.vstring "\"") = "\"\"\"" ∧
    parseSource (valueString (Value.vstring "\"")) =
      .ok (.applyE (.stringE "") (.stringE "")) ∧
    runSource (valueString (Value.vstring "\"")) =
      .evalFailure "cannot apply non-function value of type 4" ∧
    ∀ v, runSource (valueString (Value.vstring "\"")) ≠ .success v :=
  ⟨rfl, rfl, rfl, fun v h => RunResult.noConfusion
    (show RunResult.evalFailure "cannot apply non-function value of type 4" =
      .success v from h)⟩

/-- Claim C7: for numeric operands, division fails with `division by zero`
exactly when the divisor is the integer or float zero, and otherwise
returns a float value; `evalExpr` dispatches `/` to `evalDiv` on the two
operand values, and the full pipeline agrees on `1 / 2` and `1 / 0`. -/
theorem c7_div_numeric_characterization :
    (∀ (l r : Value),
      ((∃ i, l = Value.vint i) ∨ (∃ x, l = Value.vfloat x)) →
      ((∃ i, r = Value.vint i) ∨ (∃ x, r = Value.vfloat x)) →
      ((r = Value.vint 0 ∨ r = Value.vfloat 0) ↔
        evalDiv l r = .error "division by zero") ∧
      (r ≠ Value.vint 0 → r ≠ Value.vfloat 0 →
        ∃ q, evalDiv l r = .ok (Value.vfloat q))) ∧
    (∀ (bd : String) (fuel : Nat) (e1 e2 : Expr) (env : Env) (lv rv : Value),
      evalExpr bd fuel e1 env = .ok lv →
      evalExpr bd fuel e2 env = .ok rv →
      evalExpr bd (fuel + 1) (.binaryE e1 .opDiv e2) env = evalDiv lv rv) ∧
    runSource "1 / 2" = .success (.vfloat (1 / 2)) ∧
    runSource "1 / 0" = .evalFailure "division by zero" := by
  refine ⟨?_, ?_, by rfl, by rfl⟩
  · intro l r hl hr
    rcases hl with ⟨i, rfl⟩ | ⟨x, rfl⟩ <;> rcases hr with ⟨j, rfl⟩ | ⟨y, rfl⟩
    · by_cases hj : j = 0 <;> simp [evalDiv, hj]
    · by_cases hy : y = 0 <;> simp [evalDiv, hy]
    · by_cases hj : j = 0 <;> simp [evalDiv, hj]
    · by_cases hy : y = 0 <;> simp [evalDiv, hy]
  · intro bd fuel e1 e2 env lv rv h1 h2
    simp only [evalExpr, h1, h2]
    rfl

/-- Concrete instantiation of the division characterization: a zero
integer divisor errors, a nonzero one yields the float `1/2`, and the
expression-level `/` agrees with `evalDiv` on the operand values. -/
theorem c7_div_numeric_witness :
    evalDiv (.vint 1) (.vint 0) = .error "division by zero" ∧
    evalDiv (.vint 1) (.vint 2) = .ok (.vfloat (1 / 2)) ∧
    evalExpr "." 2 (.binaryE (.intE 1) .opDiv (.intE 2)) [] =
      evalDiv (.vint 1) (.vint 2) := by
  refine ⟨(c7_div_numeric_characterization.1 (.vint 1) (.vint 0)
      (Or.inl ⟨1, rfl⟩) (Or.inl ⟨0, rfl⟩)).1.mp (Or.inl rfl), ?_,
    c7_div_numeric_characterization.2.1 "." 1 (.intE 1) (.intE 2) []
      (.vint 1) (.vint 2) (by rfl) (by rfl)⟩
  obtain ⟨q, hq⟩ := (c7_div_numeric_characterization.1 (.vint 1) (.vint 2)
    (Or.inl ⟨1, rfl⟩) (Or.inl ⟨2, rfl⟩)).2 (by simp) (by simp)
  norm_num [evalDiv]

/-- Helper for C8: running the Pratt loop on the token stream of `-f x`
yields the application of the negated identifier, for any identifier
literals other than the reserved constant words. -/
theorem parseExpression_minus_ident_ident (fuel : Nat) (f x : String)
    (hf1 : f ≠ "true") (hf2 : f ≠ "false") (hf3 : f ≠ "null")
    (hx1 : x ≠ "true") (hx2 : x ≠ "false") (hx3 : x ≠ "null") :
    parseExpression (fuel + 7) precedenceLowest
      (newParser [⟨TOKEN_MINUS, "-", 1, 1⟩, ⟨TOKEN_IDENT, f, 1, 2⟩,
        ⟨TOKEN_IDENT, x, 1, 4⟩, ⟨TOKEN_EOF, "", 1, 5⟩]) =
      (.applyE (.unaryE .opNeg (.identE f)) (.identE x),
       { cur := ⟨TOKEN_IDENT, x, 1, 4⟩, peek := ⟨TOKEN_EOF, "", 1, 5⟩,
         rest := [], errors := [] }) := by
  have hIdf : parseIdentifierOrFunction (fuel + 2)
      { cur := ⟨TOKEN_IDENT, f, 1, 2⟩, peek := ⟨TOKEN_IDENT, x, 1, 4⟩,
        rest := [⟨TOKEN_EOF, "", 1, 5⟩], errors := [] } =
      (Expr.identE f,
       { cur := ⟨TOKEN_IDENT, f, 1, 2⟩, peek := ⟨TOKEN_IDENT, x, 1, 4⟩,
         rest := [⟨TOKEN_EOF, "", 1, 5⟩], errors := [] }) := by
    simp only [parseIdentifierOrFunction, if_neg hf1, if_neg hf2, if_neg hf3]
    rfl
  have hInner : parseExpression (fuel + 4) precedenceCall
      { cur := ⟨TOKEN_IDENT, f, 1, 2⟩, peek := ⟨TOKEN_IDENT, x, 1, 4⟩,
        rest := [⟨TOKEN_EOF, "", 1, 5⟩], errors := [] } =
      (Expr.identE f,
       { cur := ⟨TOKEN_IDENT, f, 1, 2⟩, peek := ⟨TOKEN_IDENT, x, 1, 4⟩,
         rest := [⟨TOKEN_EOF, "", 1, 5⟩], errors := [] }) := by
    simp only [parseExpression, parsePrefixExpression, hIdf]
    rfl
  have hIdx : parseIdentifierOrFunction (fuel + 2)
      { cur := ⟨TOKEN_IDENT, x, 1, 4⟩, peek := ⟨TOKEN_EOF, "", 1, 5⟩,
        rest := [], errors := [] } =
      (Expr.identE x,
       { cur := ⟨TOKEN_IDENT, x, 1, 4⟩, peek := ⟨TOKEN_EOF, "", 1, 5⟩,
         rest := [], errors := [] }) := by
    simp only [parseIdentifierOrFunction, if_neg hx1, if_neg hx2, if_neg hx3]
    rfl
  have hArg : parseExpression (fuel + 4) precedenceCall
      { cur := ⟨TOKEN_IDENT, x, 1, 4⟩, peek := ⟨TOKEN_EOF, "", 1, 5⟩,
        rest := [], errors := [] } =
      (Expr.identE x,
       { cur := ⟨TOKEN_IDENT, x, 1, 4⟩, peek := ⟨TOKEN_EOF, "", 1, 5⟩,
         rest := [], errors := [] }) := by
    simp only [parseExpression, parsePrefixExpression, hIdx]
    rfl
  have hUnary : parseUnary (fuel + 5) UnaryOp.opNeg
      { cur := ⟨TOKEN_MINUS, "-", 1, 1⟩, peek := ⟨TOKEN_IDENT, f, 1, 2⟩,
        rest := [⟨TOKEN_IDENT, x, 1, 4⟩, ⟨TOKEN_EOF, "", 1, 5⟩],
        errors := [] } =
      (Expr.unaryE .opNeg (.identE f),
       { cur := ⟨TOKEN_IDENT, f, 1, 2⟩, peek := ⟨TOKEN_IDENT, x, 1, 4⟩,
         rest := [⟨TOKEN_EOF, "", 1, 5⟩], errors := [] }) := by
    simp only [parseUnary, advanceP, hInner]
  have hApp : parseFunctionApplication (fuel + 5)
      (Expr.unaryE .opNeg (.identE f))
      { cur := ⟨TOKEN_IDENT, x, 1, 4⟩, peek := ⟨TOKEN_EOF, "", 1, 5⟩,
        rest := [], errors := [] } =
      (Expr.applyE (.unaryE .opNeg (.identE f)) (.identE x),
       { cur := ⟨TOKEN_IDENT, x, 1, 4⟩, peek := ⟨TOKEN_EOF, "", 1, 5⟩,
         rest := [], errors := [] }) := by
    simp only [parseFunctionApplication, hArg]
  have hLoop : parseInfixLoopGo (fuel + 6) precedenceLowest
      (Expr.unaryE .opNeg (.identE f))
      { cur := ⟨TOKEN_IDENT, f, 1, 2⟩, peek := ⟨TOKEN_IDENT, x, 1, 4⟩,
        rest := [⟨TOKEN_EOF, "", 1, 5⟩], errors := [] } =
      (Expr.applyE (.unaryE .opNeg (.identE f)) (.identE x),
       { cur := ⟨TOKEN_IDENT, x, 1, 4⟩, peek := ⟨TOKEN_EOF, "", 1, 5⟩,
         rest := [], errors := [] }) := by
    simp [parseInfixLoopGo, advanceP, hApp, peekIs, couldBeArgument,
      isInfixOperatorTok, peekPrecedence, curPrecedence, precedenceMapGo,
      precedenceLowest, precedenceCall]
  simp only [parseExpression, parsePrefixExpression, newParser, advanceP,
    hUnary, hLoop]
  rfl

/-- Claim C8: for any identifiers `f` and `x` (other than the literal
words `true`/`false`/`null`, which parse as constants), the token stream
of `-f x` parses as `Apply(Unary(-, f), x)` — the unary operand is parsed
at the function-application precedence level, so the negation binds to
`f` alone and the application happens outside it; the concrete source
`-f x` agrees. -/
theorem c8_unary_minus_operand_at_call_level (f x : String)
    (hf1 : f ≠ "true") (hf2 : f ≠ "false") (hf3 : f ≠ "null")
    (hx1 : x ≠ "true") (hx2 : x ≠ "false") (hx3 : x ≠ "null") :
    parseProgram
      [⟨TOKEN_MINUS, "-", 1, 1⟩, ⟨TOKEN_IDENT, f, 1, 2⟩,
       ⟨TOKEN_IDENT, x, 1, 4⟩, ⟨TOKEN_EOF, "", 1, 5⟩] =
      .ok (.applyE (.unaryE .opNeg (.identE f)) (.identE x)) ∧
    parseSource "-f x" =
      .ok (.applyE (.unaryE .opNeg (.identE "f")) (.identE "x")) := by
  constructor
  · have aux96 : parseExpression 96 precedenceLowest
        (newParser [⟨TOKEN_MINUS, "-", 1, 1⟩, ⟨TOKEN_IDENT, f, 1, 2⟩,
          ⟨TOKEN_IDENT, x, 1, 4⟩, ⟨TOKEN_EOF, "", 1, 5⟩]) =
        (.applyE (.unaryE .opNeg (.identE f)) (.identE x),
         { cur := ⟨TOKEN_IDENT, x, 1, 4⟩, peek := ⟨TOKEN_EOF, "", 1, 5⟩,
           rest := [], errors := [] }) := by
      rw [show (96 : Nat) = 89 + 7 from rfl]
      exact parseExpression_minus_ident_ident 89 f x hf1 hf2 hf3 hx1 hx2 hx3
    simp [parseProgram, aux96]
  · rfl

/-- Concrete instantiation of C8 at the identifiers `f` and `x`. -/
theorem c8_unary_minus_operand_witness :
    parseProgram
      [⟨TOKEN_MINUS, "-", 1, 1⟩, ⟨TOKEN_IDENT, "f", 1, 2⟩,
       ⟨TOKEN_IDENT, "x", 1, 4⟩, ⟨TOKEN_EOF, "", 1, 5⟩] =
      .ok (.applyE (.unaryE .opNeg (.identE "f")) (.identE "x")) ∧
    parseSource "-f x" =
      .ok (.applyE (.unaryE .opNeg (.identE "f")) (.identE "x")) :=
  c8_unary_minus_operand_at_call_level "f" "x" (by decide) (by decide)
    (by decide) (by decide) (by decide) (by decide)

/-- Helper for C9: folding the with-frame bindings over an extended
environment builds exactly the copied frame on top of the old frames. -/
theorem withFrameFold_go (m : List (String × Value)) (ks : List String) :
    ∀ (acc : List (String × Value)) (env : Env),
      ks.foldl (fun acc2 k => envSet acc2 k ((alistGet m k).getD Value.vnull))
          (acc :: env) =
        copyKeysGo acc m ks :: env := by
  induction ks with
  | nil => intro acc env; rfl
  | cons k ks ih =>
      intro acc env
      simp only [List.foldl_cons, copyKeysGo]
      exact ih (alistSet acc k ((alistGet m k).getD Value.vnull)) env

/-- The with-frame is one fresh innermost frame holding every key of the
scope set; no enclosing frame is touched. -/
theorem withFrameFold_cons (m : List (String × Value)) (env : Env) :
    withFrameFold m env = copyKeysGo [] m (attrsKeys m) :: env :=
  withFrameFold_go m (attrsKeys m) [] env

set_option linter.unusedVariables false in
/-- Claim C9: when the scope set `S` of `with S; n` binds `n`, the body
identifier resolves to the value from `S` even though `n` is also bound
in an enclosing frame (`hw`): the with-frame is pushed as the innermost
frame and `Env.Get` scans innermost-first.  The concrete pipeline agrees:
`let n = 2; in with { n = 1; }; n` yields `1`, not `2`. -/
theorem c9_with_frame_shadows_outer_binding (bd : String) (g : Nat)
    (s : Expr) (env : Env) (S : List (String × Value)) (n : String)
    (v w : Value)
    (hs : evalExpr bd (g + 1) s env = .ok (.vattrs S))
    (hv : alistGet S n = some v)
    (hw : envGet env n = some w) :
    evalExpr bd (g + 2) (.withE s (.identE n)) env = .ok v ∧
    runSource "let n = 2; in with \x7b n = 1; \x7d; n" = .success (.vint 1) := by
  refine ⟨?_, by rfl⟩
  have hmem : n ∈ attrsKeys S := by
    rw [mem_attrsKeys_iff, hv]; rfl
  have h1 : evalExpr bd (g + 2) (.withE s (.identE n)) env =
      (do let sv ← evalExpr bd (g + 1) s env
          match sv with
          | .vattrs m => evalExpr bd (g + 1) (.identE n) (withFrameFold m env)
          | _ => .error ("with expression requires attribute set, got " ++
              showType sv)) := rfl
  rw [h1, hs]
  show evalExpr bd (g + 1) (.identE n) (withFrameFold S env) = .ok v
  rw [withFrameFold_cons]
  have h3 : envGet (copyKeysGo [] S (attrsKeys S) :: env) n = some v := by
    simp only [envGet, copyKeysGo_get, if_pos hmem, hv, Option.getD_some]
  simp only [evalExpr, h3]

/-- Concrete instantiation of C9: the scope set binds `n = 1`, the outer
frame binds `n = 2`, and the with-body identifier yields `1`. -/
theorem c9_with_frame_shadows_witness :
    evalExpr "." 5
        (.withE (.attrSetE false [(["n"], .intE 1)]) (.identE "n"))
        [[("n", Value.vint 2)]] = .ok (.vint 1) ∧
    runSource "let n = 2; in with \x7b n = 1; \x7d; n" = .success (.vint 1) :=
  c9_with_frame_shadows_outer_binding "." 3
    (.attrSetE false [(["n"], .intE 1)]) [[("n", Value.vint 2)]]
    [("n", Value.vint 1)] "n" (.vint 1) (.vint 2) (by rfl) (by rfl) (by rfl)

/-- Claim C10: the heap view of `A // B` — `evalUpdate` allocates one
fresh attribute set (`value.NewAttrs`) and writes only into it: the
result pointer differs from both operand pointers, every pre-existing
heap slot (in particular both operands) is unchanged, and the fresh
slot's contents are exactly the pure right-biased merge of the two
operand maps. -/
theorem c10_update_fresh_result_operands_unchanged (h : AttrHeap)
    (la ra : Nat) (hla : la < h.length) (hra : ra < h.length) :
    (evalUpdateH h la ra).2 ≠ la ∧ (evalUpdateH h la ra).2 ≠ ra ∧
    (∀ a, a < h.length →
      heapGetMap (evalUpdateH h la ra).1 a = heapGetMap h a) ∧
    evalUpdate (.vattrs (heapGetMap h la)) (.vattrs (heapGetMap h ra)) =
      .ok (.vattrs (heapGetMap (evalUpdateH h la ra).1
        (evalUpdateH h la ra).2)) := by
  have hsnd : (evalUpdateH h la ra).2 = h.length := rfl
  have hfst : (evalUpdateH h la ra).1 =
      copyIntoHeap
        (copyIntoHeap (h ++ [[]]) h.length (heapGetMap h la)
          (attrsKeys (heapGetMap h la)))
        h.length (heapGetMap h ra) (attrsKeys (heapGetMap h ra)) := rfl
  refine ⟨by omega, by omega, ?_, ?_⟩
  · intro a ha
    have hne : h.length ≠ a := by omega
    rw [hfst, copyIntoHeap_get_ne _ _ _ _ _ hne,
      copyIntoHeap_get_ne _ _ _ _ _ hne]
    simp [heapGetMap, List.getElem?_append_left ha]
  · have hbase : heapGetMap (h ++ [[]]) h.length = [] := by
      simp [heapGetMap]
    have hlen1 : h.length < (h ++ [[]]).length := by simp
    have hlen2 : h.length <
        (copyIntoHeap (h ++ [[]]) h.length (heapGetMap h la)
          (attrsKeys (heapGetMap h la))).length := by
      rw [copyIntoHeap_length]; simp
    rw [hfst, hsnd, copyIntoHeap_get_self _ _ _ _ hlen2,
      copyIntoHeap_get_self _ _ _ _ hlen1, hbase]
    rfl

/-- Concrete instantiation of C10 on a two-slot heap holding
`{ a = 1; }` and `{ b = 2; }`. -/
theorem c10_update_fresh_result_witness :
    (evalUpdateH [[("a", Value.vint 1)], [("b", Value.vint 2)]] 0 1).2 ≠ 0 ∧
    (evalUpdateH [[("a", Value.vint 1)], [("b", Value.vint 2)]] 0 1).2 ≠ 1 ∧
    (∀ a, a < ([[("a", Value.vint 1)], [("b", Value.vint 2)]] : AttrHeap).length →
      heapGetMap (evalUpdateH [[("a", Value.vint 1)], [("b", Value.vint 2)]] 0 1).1 a =
        heapGetMap [[("a", Value.vint 1)], [("b", Value.vint 2)]] a) ∧
    evalUpdate
        (.vattrs (heapGetMap [[("a", Value.vint 1)], [("b", Value.vint 2)]] 0))
        (.vattrs (heapGetMap [[("a", Value.vint 1)], [("b", Value.vint 2)]] 1)) =
      .ok (.vattrs (heapGetMap
        (evalUpdateH [[("a", Value.vint 1)], [("b", Value.vint 2)]] 0 1).1
        (evalUpdateH [[("a", Value.vint 1)], [("b", Value.vint 2)]] 0 1).2)) :=
  c10_update_fresh_result_operands_unchanged
    [[("a", Value.vint 1)], [("b", Value.vint 2)]] 0 1 (by decide) (by decide)

end Gix
